import Mathlib

/-!
# Shallow embedding of the Virtual-Filesystem core (src/src)

This file embeds the on-disk data model and the operations of the
`FileSystem` class (src/src/filesystem_core.cpp, filesystem_dir.cpp,
filesystem_file.cpp, structures.h) as executable Lean definitions, and
proves/refutes the frozen claims about them.

Modelling conventions:
* The backing file is represented region-by-region, matching the layout
  `[Superblock][InodeBitmap][DataBitmap][InodeTable][DataRegion]` written
  by `format`: the superblock is a record, the two bitmaps are byte lists
  of length 128 (the code uses one byte per allocation unit), the inode
  table is a total map from inode id to `Inode` records, and the data
  region is a byte map `Nat → Nat` addressed relative to
  `data_start_address`.  All data-region accesses in the source are of
  the form `dataBlockOffset(blockId) + off = data_start_address +
  blockId*cluster_size + off`, so the relative address is
  `blockId * 1024 + off`; cross-block spills (an append running past the
  end of a block) are therefore represented faithfully.
* `int32` values stored in the data region (directory-entry inode ids,
  indirect block pointers) are serialized little-endian through
  `enc32`/`dec32`; `DirectoryItem` is its 16-byte on-disk image (4-byte
  inode id + 12-byte zero-padded name buffer); names are byte lists and
  `std::string(item_name)` is `cString` (take up to the first NUL).
* Machine integers are modelled as `Nat`; all quantities involved in the
  claims (block ids < 128, inode ids < 128, sizes ≤ a few MB) stay far
  below any 32-bit boundary, and the subtractions performed by the code
  (`file_size -= sizeof(DirectoryItem)` after an entry was found) never
  underflow.
* `stdout`/`stderr` tokens of an operation are captured in `Msg`; `cat`
  and `pwd` carry the bytes they print.
* The source constructor stores a host `filename_`; the single backing
  store is implicit here.  `readInode`/`writeInode` address the inode
  table by id; ids ≥ 103 would alias the data region in the real layout
  (4096 / sizeof(Inode) = 102 slots), a situation none of the claims'
  states reach.
-/

namespace VFS

/-- CLUSTER_SIZE from filesystem.h. -/
def CLUSTER_SIZE : Nat := 1024

/-- INODE_BITMAP_SIZE from filesystem.h (one byte per inode id). -/
def INODE_BITMAP_SIZE : Nat := 128

/-- DATA_BITMAP_SIZE from filesystem.h (one byte per data block id). -/
def DATA_BITMAP_SIZE : Nat := 128

/-- INODE_TABLE_SIZE from filesystem.h. -/
def INODE_TABLE_SIZE : Nat := 4096

/-- BYTES_PER_MB from filesystem.h. -/
def BYTES_PER_MB : Nat := 1024 * 1024

/-- MAX_NAME_LENGTH from filesystem.h. -/
def MAX_NAME_LENGTH : Nat := 11

/-- sizeof(DirectoryItem): int32 inode + char[12] name. -/
def sizeofDirectoryItem : Nat := 16

/-- sizeof(Inode): int32 id; bool; int8; 2 padding bytes; int32 file_size;
5 int32 direct; 2 int32 indirect. -/
def sizeofInode : Nat := 40

/-- sizeof(Superblock): char[9] + char[251] + 7 × int32 (260 is 4-aligned). -/
def sizeofSuperblock : Nat := 288

/-- Superblock (structures.h). -/
structure Superblock where
  signature : List Nat
  volume_descriptor : List Nat
  disk_size : Nat
  cluster_size : Nat
  cluster_count : Nat
  bitmapi_start_address : Nat
  bitmap_start_address : Nat
  inode_start_address : Nat
  data_start_address : Nat
deriving DecidableEq, Repr

/-- Inode (structures.h). -/
structure Inode where
  id : Nat
  is_directory : Bool
  references : Nat
  file_size : Nat
  direct1 : Nat
  direct2 : Nat
  direct3 : Nat
  direct4 : Nat
  direct5 : Nat
  indirect1 : Nat
  indirect2 : Nat
deriving DecidableEq, Repr

/-- The zero-filled inode record (`memset` image of an unallocated slot). -/
def Inode.zero : Inode :=
  { id := 0, is_directory := false, references := 0, file_size := 0
    direct1 := 0, direct2 := 0, direct3 := 0, direct4 := 0, direct5 := 0
    indirect1 := 0, indirect2 := 0 }

/-- DirectoryItem (structures.h); `item_name` is the 12-byte on-disk buffer. -/
structure DirectoryItem where
  inode : Nat
  item_name : List Nat
deriving DecidableEq, Repr

/-- Little-endian serialization of an int32 value. -/
def enc32 (v : Nat) : List Nat :=
  [v % 256, v / 256 % 256, v / 65536 % 256, v / 16777216 % 256]

/-- Little-endian deserialization of an int32 value. -/
def dec32 (bs : List Nat) : Nat :=
  bs.getD 0 0 + 256 * bs.getD 1 0 + 65536 * bs.getD 2 0 + 16777216 * bs.getD 3 0

/-- `std::string(buf)` on a char buffer: the bytes before the first NUL. -/
def cString (bs : List Nat) : List Nat := bs.takeWhile (· ≠ 0)

/-- The 12-byte name buffer produced by `strncpy(buf, name, 11)` on a
zero-initialized `char[12]` (the code always sets `buf[11] = 0` as well). -/
def nameBuffer (name : List Nat) : List Nat :=
  name.take MAX_NAME_LENGTH ++
    List.replicate (12 - (name.take MAX_NAME_LENGTH).length) 0

/-- On-disk image of a DirectoryItem (16 bytes). -/
def encItem (it : DirectoryItem) : List Nat := enc32 it.inode ++ it.item_name

/-- Parse a DirectoryItem from its 16-byte on-disk image. -/
def decItem (bs : List Nat) : DirectoryItem :=
  { inode := dec32 bs, item_name := (bs.drop 4).take 12 }

/-- Write a byte list into a byte map at address `a`. -/
def writeBytes (m : Nat → Nat) (a : Nat) (bs : List Nat) : Nat → Nat :=
  fun x => if a ≤ x ∧ x < a + bs.length then bs.getD (x - a) 0 else m x

/-- Read `n` bytes from a byte map starting at address `a`. -/
def readBytes (m : Nat → Nat) (a n : Nat) : List Nat :=
  (List.range n).map (fun i => m (a + i))

/-- The whole mutable state of the virtual filesystem backing file plus
the working-directory cursor (`currentDirInode_`). -/
structure FSState where
  superblock : Superblock
  inodeBitmap : List Nat
  dataBitmap : List Nat
  inodeTable : Nat → Inode
  dataRegion : Nat → Nat
  currentDirInode : Nat

/-- Operation results: the status token printed by an operation, or the
bytes an output-producing operation (`cat`, `pwd`) sends to stdout. -/
inductive Msg where
  | ok
  | invalidName
  | invalidInput
  | exist
  | fileNotFound
  | pathNotFound
  | isDir
  | notEmpty
  | noSpace
  | printed (bytes : List Nat)
deriving DecidableEq, Repr

namespace FileSystem

/-- FileSystem::readInode — fetch the inode record stored at `id`. -/
def readInode (s : FSState) (id : Nat) : Inode := s.inodeTable id

/-- FileSystem::writeInode — store an inode record at `id`. -/
def writeInode (s : FSState) (id : Nat) (ino : Inode) : FSState :=
  { s with inodeTable := fun j => if j = id then ino else s.inodeTable j }

/-- The first-fit scan shared by both allocators: find the first byte
equal to 0, set it to 1, and return its index with the updated bitmap. -/
def allocScan : List Nat → Option (Nat × List Nat)
  | [] => none
  | b :: rest =>
    if b = 0 then some (0, 1 :: rest)
    else (allocScan rest).map (fun p => (p.1 + 1, b :: p.2))

/-- FileSystem::allocateFreeInode — `none` models the `-1` failure. -/
def allocateFreeInode (s : FSState) : FSState × Option Nat :=
  match allocScan s.inodeBitmap with
  | none => (s, none)
  | some (i, bm) => ({ s with inodeBitmap := bm }, some i)

/-- FileSystem::allocateFreeDataBlock — `none` models the `-1` failure. -/
def allocateFreeDataBlock (s : FSState) : FSState × Option Nat :=
  match allocScan s.dataBitmap with
  | none => (s, none)
  | some (i, bm) => ({ s with dataBitmap := bm }, some i)

/-- FileSystem::dataBlockOffset, relative to `data_start_address`. -/
def dataBlockOffset (blockId : Nat) : Nat := blockId * CLUSTER_SIZE

/-- Read the `i`-th DirectoryItem of the block `b` from the data region. -/
def readItem (m : Nat → Nat) (b i : Nat) : DirectoryItem :=
  decItem (readBytes m (dataBlockOffset b + i * sizeofDirectoryItem)
    sizeofDirectoryItem)

/-- The sequential directory-entry scan shared by all lookup loops
(`directoryContains`, `cat`, `write`, `rm`, `mv`, `cd`, …): starting at
entry index `i` with `n` entries left, return the first entry (with its
index) whose name compares equal to `name`. -/
def findEntryAux (m : Nat → Nat) (b : Nat) (name : List Nat) :
    Nat → Nat → Option (Nat × DirectoryItem)
  | _, 0 => none
  | i, n + 1 =>
    let it := readItem m b i
    if cString it.item_name = name then some (i, it)
    else findEntryAux m b name (i + 1) n

/-- Scan all `file_size / sizeof(DirectoryItem)` entries of a directory
inode for `name`. -/
def findEntry (s : FSState) (dir : Inode) (name : List Nat) :
    Option (Nat × DirectoryItem) :=
  findEntryAux s.dataRegion dir.direct1 name 0
    (dir.file_size / sizeofDirectoryItem)

/-- FileSystem::directoryContains. -/
def directoryContains (s : FSState) (dirInodeId : Nat) (name : List Nat) :
    Bool :=
  let dirInode := readInode s dirInodeId
  if !dirInode.is_directory then false
  else (findEntry s dirInode name).isSome

/-- The root-directory `.` entry written by format. -/
def rootDot : DirectoryItem := { inode := 0, item_name := nameBuffer [46] }

/-- The root-directory `..` entry written by format (root's parent is
itself). -/
def rootDotDot : DirectoryItem := { inode := 0, item_name := nameBuffer [46, 46] }

/-- FileSystem::format (filesystem_core.cpp).  The file is truncated, the
superblock, bitmaps (bit 0 of each reserved), inode table (slot 0 = root)
and the root directory block (`.` → 0, `..` → 0) are written, and the file
is extended with zero bytes to the full size. -/
def format (sizeMB : Nat) : FSState :=
  let totalBytes := sizeMB * BYTES_PER_MB
  let sb : Superblock :=
    { signature := [107, 108, 101, 112, 97, 99]
      volume_descriptor := [90, 79, 83, 95, 70, 83, 95, 50, 48, 50, 53]
      disk_size := totalBytes
      cluster_size := CLUSTER_SIZE
      cluster_count := totalBytes / CLUSTER_SIZE
      bitmapi_start_address := sizeofSuperblock
      bitmap_start_address := sizeofSuperblock + INODE_BITMAP_SIZE
      inode_start_address := sizeofSuperblock + INODE_BITMAP_SIZE + DATA_BITMAP_SIZE
      data_start_address :=
        sizeofSuperblock + INODE_BITMAP_SIZE + DATA_BITMAP_SIZE + INODE_TABLE_SIZE }
  let rootInode : Inode :=
    { Inode.zero with id := 0, is_directory := true, references := 1
                      file_size := 2 * sizeofDirectoryItem, direct1 := 0 }
  { superblock := sb
    inodeBitmap := 1 :: List.replicate (INODE_BITMAP_SIZE - 1) 0
    dataBitmap := 1 :: List.replicate (DATA_BITMAP_SIZE - 1) 0
    inodeTable := fun i => if i = 0 then rootInode else Inode.zero
    dataRegion :=
      writeBytes (writeBytes (fun _ => 0) 0 (encItem rootDot))
        sizeofDirectoryItem (encItem rootDotDot)
    currentDirInode := 0 }

/-- FileSystem::touch (filesystem_file.cpp). -/
def touch (s : FSState) (name : List Nat) : FSState × Msg :=
  if name = [] ∨ name.length > MAX_NAME_LENGTH ∨ name.contains 47 then
    (s, .invalidName)
  else if directoryContains s s.currentDirInode name then (s, .exist)
  else
    match allocateFreeInode s with
    | (s1, none) => (s1, .noSpace)
    | (s1, some newInodeId) =>
      let newFile : Inode :=
        { Inode.zero with id := newInodeId, is_directory := false
                          references := 1, file_size := 0 }
      let s2 := writeInode s1 newInodeId newFile
      let parent := readInode s2 s2.currentDirInode
      if !parent.is_directory then (s2, .pathNotFound)
      else
        let newItem : DirectoryItem :=
          { inode := newInodeId, item_name := nameBuffer name }
        let region :=
          writeBytes s2.dataRegion (dataBlockOffset parent.direct1 + parent.file_size)
            (encItem newItem)
        let s3 := { s2 with dataRegion := region }
        let s4 := writeInode s3 s3.currentDirInode
          { parent with file_size := parent.file_size + sizeofDirectoryItem }
        (s4, .ok)

/-- The bytes of the `<empty file>` message `cat` prints for an empty file. -/
def emptyFileBytes : List Nat :=
  [60, 101, 109, 112, 116, 121, 32, 102, 105, 108, 101, 62]

/-- The 256-slot pointer scan of an indirection block (`cat`, STEP 4):
read 32-bit pointers from consecutive slots, stopping at the first
non-positive one. -/
def ptrScanAux (m : Nat → Nat) (b : Nat) : Nat → Nat → List Nat
  | _, 0 => []
  | i, fuel + 1 =>
    let ptr := dec32 (readBytes m (dataBlockOffset b + 4 * i) 4)
    if ptr > 0 then ptr :: ptrScanAux m b (i + 1) fuel else []

/-- Scan all 256 pointer slots of indirection block `b`. -/
def ptrScan (m : Nat → Nat) (b : Nat) : List Nat := ptrScanAux m b 0 256

/-- The direct blocks pushed by `cat`/`outcp` STEP 4 (each slot only if
positive). -/
def directList (t : Inode) : List Nat :=
  (if t.direct1 > 0 then [t.direct1] else []) ++
  (if t.direct2 > 0 then [t.direct2] else []) ++
  (if t.direct3 > 0 then [t.direct3] else []) ++
  (if t.direct4 > 0 then [t.direct4] else []) ++
  (if t.direct5 > 0 then [t.direct5] else [])

/-- The full block list `cat` reads: direct blocks, then the pointers of
each present indirection block. -/
def catBlockList (m : Nat → Nat) (t : Inode) : List Nat :=
  directList t ++
  (if t.indirect1 > 0 then ptrScan m t.indirect1 else []) ++
  (if t.indirect2 > 0 then ptrScan m t.indirect2 else [])

/-- `cat` STEP 5 read loop: from each block read
`min(CLUSTER_SIZE, file_size - totalRead)` bytes until the size is
reached or the blocks run out. -/
def readContentLoop (m : Nat → Nat) : List Nat → Nat → Nat → List Nat
  | [], _, _ => []
  | b :: rest, fileSize, totalRead =>
    if totalRead ≥ fileSize then []
    else
      let toRead := min CLUSTER_SIZE (fileSize - totalRead)
      readBytes m (dataBlockOffset b) toRead ++
        readContentLoop m rest fileSize (totalRead + toRead)

/-- FileSystem::cat (filesystem_file.cpp).  On success the printed bytes
are the NUL-terminated C string of the reconstruction buffer followed by
one newline. -/
def cat (s : FSState) (name : List Nat) : FSState × Msg :=
  if name = [] then (s, .invalidName)
  else
    let dir := readInode s s.currentDirInode
    if !dir.is_directory then (s, .pathNotFound)
    else
      match findEntry s dir name with
      | none => (s, .fileNotFound)
      | some (_, item) =>
        let target := readInode s item.inode
        if target.is_directory then (s, .isDir)
        else if target.file_size = 0 ∨ target.direct1 = 0 then
          (s, .printed (emptyFileBytes ++ [10]))
        else
          let blockList := catBlockList s.dataRegion target
          let content := readContentLoop s.dataRegion blockList target.file_size 0
          let buffer :=
            content ++ List.replicate (target.file_size + 1 - content.length) 0
          (s, .printed (cString buffer ++ [10]))

/-- The `i`-th direct slot of an inode (0-based), as used by the write
loop's reuse checks. -/
def directSlot (t : Inode) : Nat → Nat
  | 0 => t.direct1
  | 1 => t.direct2
  | 2 => t.direct3
  | 3 => t.direct4
  | 4 => t.direct5
  | _ => 0

/-- `write` STEP 4, direct-block loop body (`for i < min(5, blocksNeeded)`,
with `n` iterations left): reuse the already-allocated slot at position
`i`, otherwise allocate a fresh data block; `none` models the NO SPACE
abort (with the state the loop has reached). -/
def writeAllocDirectAux (t : Inode) : FSState → Nat → Nat → FSState × Option (List Nat)
  | s, _, 0 => (s, some [])
  | s, i, n + 1 =>
    let pick :=
      if directSlot t i > 0 then (s, some (directSlot t i))
      else allocateFreeDataBlock s
    match pick with
    | (s1, none) => (s1, none)
    | (s1, some blockId) =>
      match writeAllocDirectAux t s1 (i + 1) n with
      | (s2, none) => (s2, none)
      | (s2, some l) => (s2, some (blockId :: l))

/-- `write` STEP 4, direct-block loop, starting at slot 0. -/
def writeAllocDirect (s : FSState) (t : Inode) (k : Nat) :
    FSState × Option (List Nat) :=
  writeAllocDirectAux t s 0 (min 5 k)

/-- `write` STEP 4, indirection pointer loop: allocate `cnt` fresh data
blocks, writing each id as a 32-bit pointer into consecutive slots of
indirection block `ind` starting at slot `i`. -/
def writeAllocPtrLoop (s : FSState) (ind i cnt : Nat) :
    FSState × Option (List Nat) :=
  match cnt with
  | 0 => (s, some [])
  | c + 1 =>
    match allocateFreeDataBlock s with
    | (s1, none) => (s1, none)
    | (s1, some blockId) =>
      let region :=
        writeBytes s1.dataRegion (dataBlockOffset ind + 4 * i) (enc32 blockId)
      let s2 := { s1 with dataRegion := region }
      match writeAllocPtrLoop s2 ind (i + 1) c with
      | (s3, none) => (s3, none)
      | (s3, some l) => (s3, some (blockId :: l))

/-- `write` STEP 4 in full: the direct loop, then (for more than five
blocks) the lazily-allocated first and second indirection blocks with
their pointer loops.  Returns the inode locals (with any newly assigned
`indirect1`/`indirect2`) and the ordered block list. -/
def writeAlloc (s : FSState) (t : Inode) (blocksNeeded : Nat) :
    FSState × Option (Inode × List Nat) :=
  match writeAllocDirect s t blocksNeeded with
  | (s1, none) => (s1, none)
  | (s1, some blockList) =>
    if blocksNeeded > 5 then
      let ibn := blocksNeeded - 5
      let pick1 :=
        if t.indirect1 = 0 then allocateFreeDataBlock s1 else (s1, some t.indirect1)
      match pick1 with
      | (s2, none) => (s2, none)
      | (s2, some indBlock1) =>
        let t1 := { t with indirect1 := indBlock1 }
        match writeAllocPtrLoop s2 indBlock1 0 (min 256 ibn) with
        | (s3, none) => (s3, none)
        | (s3, some l1) =>
          if ibn > 256 then
            let pick2 :=
              if t1.indirect2 = 0 then allocateFreeDataBlock s3
              else (s3, some t1.indirect2)
            match pick2 with
            | (s4, none) => (s4, none)
            | (s4, some indBlock2) =>
              let t2 := { t1 with indirect2 := indBlock2 }
              match writeAllocPtrLoop s4 indBlock2 0 (ibn - 256) with
              | (s5, none) => (s5, none)
              | (s5, some l2) => (s5, some (t2, blockList ++ l1 ++ l2))
          else (s3, some (t1, blockList ++ l1))
    else (s1, some (t, blockList))

/-- `write` STEP 5: write the content into the collected blocks, one
`min(CLUSTER_SIZE, contentSize - written)` chunk per block. -/
def writeContentLoop (m : Nat → Nat) (blocks content : List Nat)
    (written : Nat) : Nat → Nat :=
  match blocks with
  | [] => m
  | b :: rest =>
    let toWrite := min CLUSTER_SIZE (content.length - written)
    let m1 :=
      writeBytes m (dataBlockOffset b) ((content.drop written).take toWrite)
    writeContentLoop m1 rest content (written + toWrite)

/-- `write` STEP 6: copy the first five entries of the block list into
the direct slots (each only if the list is long enough). -/
def updateDirects (t : Inode) (bl : List Nat) : Inode :=
  let t1 := if bl.length ≥ 1 then { t with direct1 := bl.getD 0 0 } else t
  let t2 := if bl.length ≥ 2 then { t1 with direct2 := bl.getD 1 0 } else t1
  let t3 := if bl.length ≥ 3 then { t2 with direct3 := bl.getD 2 0 } else t2
  let t4 := if bl.length ≥ 4 then { t3 with direct4 := bl.getD 3 0 } else t3
  if bl.length ≥ 5 then { t4 with direct5 := bl.getD 4 0 } else t4

/-- FileSystem::write (filesystem_file.cpp): overwrite the named file's
content, reusing direct slots and allocating the shortfall. -/
def write (s : FSState) (name content : List Nat) : FSState × Msg :=
  if name = [] then (s, .invalidName)
  else if content = [] then (s, .invalidInput)
  else
    let dir := readInode s s.currentDirInode
    if !dir.is_directory then (s, .pathNotFound)
    else
      match findEntry s dir name with
      | none => (s, .fileNotFound)
      | some (_, item) =>
        let target := readInode s item.inode
        if target.is_directory then (s, .fileNotFound)
        else
          let contentSize := content.length
          let blocksNeeded := (contentSize + CLUSTER_SIZE - 1) / CLUSTER_SIZE
          match writeAlloc s target blocksNeeded with
          | (s1, none) => (s1, .noSpace)
          | (s1, some (t1, blockList)) =>
            let region := writeContentLoop s1.dataRegion blockList content 0
            let s2 := { s1 with dataRegion := region }
            let t2 := updateDirects t1 blockList
            let s3 := writeInode s2 item.inode { t2 with file_size := contentSize }
            (s3, .ok)

/-- `bm[idx / 8] &= ~(1 << (idx % 8))`, guarded by `idx / 8 <` the bitmap
size exactly as in `rm` (an out-of-range index changes nothing). -/
def clearBitmapBit (bm : List Nat) (idx : Nat) : List Nat :=
  let byteIdx := idx / 8
  let bitIdx := idx % 8
  bm.set byteIdx (bm.getD byteIdx 0 &&& (255 ^^^ (1 <<< bitIdx)))

/-- `rm` STEP 4: clear the bit of every positive block pointer of the
freed file (direct1..5, indirect1, indirect2, in that order). -/
def freeBlockBits (bm : List Nat) (t : Inode) : List Nat :=
  let f := fun (b : List Nat) (p : Nat) => if p > 0 then clearBitmapBit b p else b
  f (f (f (f (f (f (f bm t.direct1) t.direct2) t.direct3) t.direct4) t.direct5)
      t.indirect1) t.indirect2

/-- FileSystem::rm (filesystem_file.cpp): delete a file, clear its
bitmap bits (bit-granularity, see C2), and remove its entry via
swap-with-last. -/
def rm (s : FSState) (name : List Nat) : FSState × Msg :=
  if name = [] then (s, .invalidName)
  else
    let parent := readInode s s.currentDirInode
    if !parent.is_directory then (s, .pathNotFound)
    else
      let entries := parent.file_size / sizeofDirectoryItem
      match findEntry s parent name with
      | none => (s, .fileNotFound)
      | some (targetIndex, item) =>
        let target := readInode s item.inode
        if target.is_directory then (s, .fileNotFound)
        else
          let s1 := { s with dataBitmap := freeBlockBits s.dataBitmap target }
          let s2 := { s1 with inodeBitmap := clearBitmapBit s1.inodeBitmap item.inode }
          let s3 :=
            if entries > 1 ∧ targetIndex ≠ entries - 1 then
              let last := readBytes s2.dataRegion
                (dataBlockOffset parent.direct1 + (entries - 1) * sizeofDirectoryItem)
                sizeofDirectoryItem
              let region := writeBytes s2.dataRegion
                (dataBlockOffset parent.direct1 + targetIndex * sizeofDirectoryItem)
                last
              { s2 with dataRegion := region }
            else s2
          let s4 := writeInode s3 s3.currentDirInode
            { parent with file_size := parent.file_size - sizeofDirectoryItem }
          (s4, .ok)

/-- FileSystem::mkdir (filesystem_dir.cpp). -/
def mkdir (s : FSState) (name : List Nat) : FSState × Msg :=
  if name = [] then (s, .invalidName)
  else if name.length > MAX_NAME_LENGTH then (s, .invalidName)
  else if name.contains 47 then (s, .invalidName)
  else if directoryContains s s.currentDirInode name then (s, .exist)
  else
    let parentInode := readInode s s.currentDirInode
    if !parentInode.is_directory then (s, .pathNotFound)
    else
      let (s1, oInode) := allocateFreeInode s
      let (s2, oBlock) := allocateFreeDataBlock s1
      match oInode, oBlock with
      | some newInodeId, some newBlockId =>
        let newInode : Inode :=
          { Inode.zero with id := newInodeId, is_directory := true
                            references := 1, file_size := 2 * sizeofDirectoryItem
                            direct1 := newBlockId }
        let s3 := writeInode s2 newInodeId newInode
        let dot : DirectoryItem := { inode := newInodeId, item_name := nameBuffer [46] }
        let dotdot : DirectoryItem :=
          { inode := s.currentDirInode, item_name := nameBuffer [46, 46] }
        let region1 :=
          writeBytes
            (writeBytes s3.dataRegion (dataBlockOffset newBlockId) (encItem dot))
            (dataBlockOffset newBlockId + sizeofDirectoryItem) (encItem dotdot)
        let s4 := { s3 with dataRegion := region1 }
        let newEntry : DirectoryItem := { inode := newInodeId, item_name := nameBuffer name }
        let region2 :=
          writeBytes s4.dataRegion
            (dataBlockOffset parentInode.direct1 + parentInode.file_size)
            (encItem newEntry)
        let s5 := { s4 with dataRegion := region2 }
        let s6 := writeInode s5 s5.currentDirInode
          { parentInode with file_size := parentInode.file_size + sizeofDirectoryItem }
        (s6, .ok)
      | _, _ => (s2, .noSpace)

/-- The `cd` search loop: first entry whose name matches; `some none`
models finding a non-directory (PATH NOT FOUND and stop), `some (some id)`
a directory hit. -/
def cdLoop (s : FSState) (b : Nat) (name : List Nat) :
    Nat → Nat → Option (Option Nat)
  | _, 0 => none
  | i, n + 1 =>
    let it := readItem s.dataRegion b i
    if cString it.item_name = name then
      if !(readInode s it.inode).is_directory then some none
      else some (some it.inode)
    else cdLoop s b name (i + 1) n

/-- FileSystem::cd (filesystem_dir.cpp).  `cd ..` reads the second entry
of the current directory's block unconditionally. -/
def cd (s : FSState) (name : List Nat) : FSState × Msg :=
  if name = [46, 46] then
    let current := readInode s s.currentDirInode
    let parentItem := decItem (readBytes s.dataRegion
      (dataBlockOffset current.direct1 + sizeofDirectoryItem) sizeofDirectoryItem)
    ({ s with currentDirInode := parentItem.inode }, .ok)
  else
    let current := readInode s s.currentDirInode
    if !current.is_directory then (s, .pathNotFound)
    else
      match cdLoop s current.direct1 name 0
        (current.file_size / sizeofDirectoryItem) with
      | some (some id) => ({ s with currentDirInode := id }, .ok)
      | some none => (s, .pathNotFound)
      | none => (s, .pathNotFound)

/-- FileSystem::getParentInodeId: the inode of the `..` (second) entry;
`none` models the `-1` failure. -/
def getParentInodeId (s : FSState) (dirInodeId : Nat) : Option Nat :=
  let dirInode := readInode s dirInodeId
  if !dirInode.is_directory then none
  else some (decItem (readBytes s.dataRegion
    (dataBlockOffset dirInode.direct1 + sizeofDirectoryItem)
    sizeofDirectoryItem)).inode

/-- The FileSystem::findNameInParent scan: first entry referencing
`childId` whose name is neither `.` nor `..`. -/
def findNameAux (m : Nat → Nat) (b childId : Nat) : Nat → Nat → List Nat
  | _, 0 => []
  | i, n + 1 =>
    let it := readItem m b i
    if it.inode = childId ∧ cString it.item_name ≠ [46] ∧
        cString it.item_name ≠ [46, 46] then
      cString it.item_name
    else findNameAux m b childId (i + 1) n

/-- FileSystem::findNameInParent; the empty list models the empty-string
failure result. -/
def findNameInParent (s : FSState) (parentInodeId childInodeId : Nat) : List Nat :=
  let parent := readInode s parentInodeId
  if !parent.is_directory then []
  else
    findNameAux s.dataRegion parent.direct1 childInodeId 0
      (parent.file_size / sizeofDirectoryItem)

/-- The `pwd` upward walk: collect the name of each level (innermost
first), stopping at the root or at a broken link; the fuel bounds the
source's `while` loop, which recurs on parent links and cannot cycle in
any state the theorems below evaluate. -/
def pwdWalk (s : FSState) : Nat → Nat → List (List Nat)
  | _, 0 => []
  | currentId, fuel + 1 =>
    if currentId = 0 then []
    else
      match getParentInodeId s currentId with
      | none => []
      | some parentId =>
        let name := findNameInParent s parentId currentId
        if name = [] then []
        else name :: pwdWalk s parentId fuel

/-- FileSystem::pwd (filesystem_dir.cpp, the src/src version): `/` for
the root, otherwise `/` followed by the collected names in reverse order
joined with `/` (no trailing separator), then a newline. -/
def pwd (s : FSState) : Msg :=
  if s.currentDirInode = 0 then .printed [47, 10]
  else
    let parts := pwdWalk s s.currentDirInode 128
    .printed ([47] ++ List.intercalate [47] parts.reverse ++ [10])

/-- FileSystem::rmdir (filesystem_dir.cpp): byte-granularity bitmap
frees (unlike `rm`), then swap-with-last entry removal. -/
def rmdir (s : FSState) (name : List Nat) : FSState × Msg :=
  if name = [] then (s, .invalidName)
  else
    let parent := readInode s s.currentDirInode
    if !parent.is_directory then (s, .pathNotFound)
    else
      let entries := parent.file_size / sizeofDirectoryItem
      match findEntry s parent name with
      | none => (s, .fileNotFound)
      | some (targetIndex, item) =>
        let target := readInode s item.inode
        if !target.is_directory then (s, .fileNotFound)
        else if target.file_size > 2 * sizeofDirectoryItem then (s, .notEmpty)
        else
          let s1 := { s with inodeBitmap := s.inodeBitmap.set item.inode 0 }
          let s2 :=
            if target.direct1 > 0 ∧ target.direct1 < DATA_BITMAP_SIZE then
              { s1 with dataBitmap := s1.dataBitmap.set target.direct1 0 }
            else s1
          let s3 :=
            if entries > 1 ∧ targetIndex ≠ entries - 1 then
              let last := readBytes s2.dataRegion
                (dataBlockOffset parent.direct1 + (entries - 1) * sizeofDirectoryItem)
                sizeofDirectoryItem
              let region := writeBytes s2.dataRegion
                (dataBlockOffset parent.direct1 + targetIndex * sizeofDirectoryItem)
                last
              { s2 with dataRegion := region }
            else s2
          let s4 := writeInode s3 s3.currentDirInode
            { parent with file_size := parent.file_size - sizeofDirectoryItem }
          (s4, .ok)

/-- `destination.find('/')` split: directory part before the first slash
(empty when there is none) and file part after it. -/
def splitSlash (dst : List Nat) : List Nat × List Nat :=
  match dst.findIdx? (fun c => c == 47) with
  | none => ([], dst)
  | some i => (dst.take i, dst.drop (i + 1))

/-- FileSystem::mv (filesystem_file.cpp): rename in place when the
destination stays in the current directory, otherwise swap-with-last
removal from the source directory and append to the destination
directory. -/
def mv (s : FSState) (source destination : List Nat) : FSState × Msg :=
  if source = [] ∨ destination = [] then (s, .invalidInput)
  else
    let parent := readInode s s.currentDirInode
    if !parent.is_directory then (s, .pathNotFound)
    else
      let entries := parent.file_size / sizeofDirectoryItem
      match findEntry s parent source with
      | none => (s, .fileNotFound)
      | some (srcIndex, srcItem) =>
        let (destDirName, destFileName) := splitSlash destination
        let oDest : Option Nat :=
          if destDirName = [] then some s.currentDirInode
          else
            match findEntry s parent destDirName with
            | none => none
            | some (_, dirItem) =>
              if (readInode s dirItem.inode).is_directory then some dirItem.inode
              else none
        match oDest with
        | none => (s, .pathNotFound)
        | some destDirInodeId =>
          let destDir := readInode s destDirInodeId
          if !destDir.is_directory then (s, .pathNotFound)
          else if destDirInodeId = s.currentDirInode then
            let renamed : DirectoryItem :=
              { inode := srcItem.inode, item_name := nameBuffer destFileName }
            let region := writeBytes s.dataRegion
              (dataBlockOffset parent.direct1 + srcIndex * sizeofDirectoryItem)
              (encItem renamed)
            ({ s with dataRegion := region }, .ok)
          else
            let s1 :=
              if entries > 1 ∧ srcIndex ≠ entries - 1 then
                let last := readBytes s.dataRegion
                  (dataBlockOffset parent.direct1 + (entries - 1) * sizeofDirectoryItem)
                  sizeofDirectoryItem
                let region := writeBytes s.dataRegion
                  (dataBlockOffset parent.direct1 + srcIndex * sizeofDirectoryItem)
                  last
                { s with dataRegion := region }
              else s
            let s2 := writeInode s1 s1.currentDirInode
              { parent with file_size := parent.file_size - sizeofDirectoryItem }
            let newEntry : DirectoryItem :=
              { inode := srcItem.inode, item_name := nameBuffer destFileName }
            let region2 := writeBytes s2.dataRegion
              (dataBlockOffset destDir.direct1 + destDir.file_size)
              (encItem newEntry)
            let s3 := { s2 with dataRegion := region2 }
            let s4 := writeInode s3 destDirInodeId
              { destDir with file_size := destDir.file_size + sizeofDirectoryItem }
            (s4, .ok)

end FileSystem

open FileSystem

/-! ## Derived definitions used by the theorems: concrete names, contents
and operation traces, and specification-side descriptions of states. -/

/-- The file name `f`. -/
def fName : List Nat := [102]

/-- The file name `a.txt`. -/
def aTxt : List Nat := [97, 46, 116, 120, 116]

/-- The file name `b.txt`. -/
def bTxt : List Nat := [98, 46, 116, 120, 116]

/-- The directory name `docs`. -/
def docsName : List Nat := [100, 111, 99, 115]

/-- The name `a`. -/
def nA : List Nat := [97]

/-- The name `b`. -/
def nB : List Nat := [98]

/-- The destination path `b/a`. -/
def destBA : List Nat := [98, 47, 97]

/-- The name `.`. -/
def dotName : List Nat := [46]

/-- The name `..`. -/
def dotdotName : List Nat := [46, 46]

/-- The content `hello`. -/
def helloBytes : List Nat := [104, 101, 108, 108, 111]

/-- A 6144-byte content (six clusters, exercising the first indirection
block). -/
def c6144 : List Nat := List.replicate 6144 97

/-- Distinct three-character file names `f00`, `f01`, … used to fill a
directory. -/
def mkName (i : Nat) : List Nat := [102, 48 + i / 10, 48 + i % 10]

/-- Apply `touch` once per name, keeping the states. -/
def touchMany (s : FSState) (names : List (List Nat)) : FSState :=
  names.foldl (fun st n => (touch st n).1) s

/-- A bitmap whose first `m` bytes are 1 and the rest (up to 128) are 0:
the shape every bitmap has while blocks are only being allocated. -/
def onesZeros (m : Nat) : List Nat :=
  List.replicate m 1 ++ List.replicate (128 - m) 0

/-- The `file_size` bytes `cat` reconstructs for inode `t` (the bytes
copied into its buffer). -/
def catContent (s : FSState) (t : Inode) : List Nat :=
  readContentLoop s.dataRegion (catBlockList s.dataRegion t) t.file_size 0

/-- The iterated pointer-slot writes performed by the write path's
indirection loop: write each listed pointer into consecutive 4-byte slots
of block `ind` starting at slot `i`. -/
def ptrTable (m0 : Nat → Nat) (ind i : Nat) : List Nat → (Nat → Nat)
  | [] => m0
  | p :: ps =>
    ptrTable (writeBytes m0 (dataBlockOffset ind + 4 * i) (enc32 p)) ind (i + 1) ps

/-- The data region as format leaves it: the two root entries over zeros. -/
def rootRegion : Nat → Nat :=
  writeBytes (writeBytes (fun _ => 0) 0 (encItem rootDot))
    sizeofDirectoryItem (encItem rootDotDot)

/-- State after `format 1; touch f`: a fresh filesystem with one empty
file in the root. -/
def freshTouched : FSState := (touch (format 1) fName).1

/-- The root inode as it stands in `freshTouched` (three entries). -/
def rootAfterTouch : Inode :=
  { Inode.zero with id := 0, is_directory := true, references := 1
                    file_size := 3 * sizeofDirectoryItem, direct1 := 0 }

/-- The file inode of `f` in `freshTouched`. -/
def fInode : Inode :=
  { Inode.zero with id := 1, is_directory := false, references := 1, file_size := 0 }

/-- C2 trace: `format 1; touch a.txt`. -/
def c2s1 : FSState := (touch (format 1) aTxt).1

/-- C2 trace: `…; rm a.txt`. -/
def c2s2 : FSState × Msg := rm c2s1 aTxt

/-- C2 trace: `…; touch b.txt`. -/
def c2s3 : FSState × Msg := touch c2s2.1 bTxt

/-- C5 trace: `format 1; rmdir .`. -/
def c5s : FSState × Msg := rmdir (format 1) dotName

/-- C6 trace: `format 1; mkdir a; mkdir b`. -/
def c6s0 : FSState := (mkdir (mkdir (format 1) nA).1 nB).1

/-- C6 trace: `…; mv a b/a` (mv silently relocates a directory without
updating its `..` entry). -/
def c6s1 : FSState × Msg := mv c6s0 nA destBA

/-- C6 trace: `…; cd b`. -/
def c6s2 : FSState × Msg := cd c6s1.1 nB

/-- C6 trace: `…; cd a`. -/
def c6s3 : FSState × Msg := cd c6s2.1 nA

/-- C6 trace: `…; cd ..`. -/
def c6s4 : FSState × Msg := cd c6s3.1 dotdotName

/-- C7 trace: `format 1` then `touch f00 … f61`, filling the root block
to exactly 64 entries (1024 bytes). -/
def c7full : FSState := touchMany (format 1) ((List.range 62).map mkName)

/-- C7 trace: the 63rd `touch`, whose directory entry no longer fits the
root's single block. -/
def c7s : FSState × Msg := touch c7full (mkName 62)

/-- C9 trace: `format 1; mkdir docs; cd docs`. -/
def c9s : FSState := (cd (mkdir (format 1) docsName).1 docsName).1

/-- Bytes of the path `/docs/` (the spec's claimed pwd output). -/
def slashDocsSlash : List Nat := [47, 100, 111, 99, 115, 47, 10]

/-- Bytes of the path `/docs` (what pwd actually prints) plus newline. -/
def slashDocs : List Nat := [47, 100, 111, 99, 115, 10]

/-- State with the file `f` holding content `hello`
(`format 1; touch f; write f hello`), used as a concrete witness state. -/
def helloWritten : FSState := (write freshTouched fName helloBytes).1

/-- The root-directory entry `f` → inode 1 created by `touch f`. -/
def fEntry : DirectoryItem := { inode := 1, item_name := nameBuffer fName }

/-- The number of blocks `write` needs for a content (`blocksNeeded`). -/
def blocksFor (C : List Nat) : Nat :=
  (C.length + CLUSTER_SIZE - 1) / CLUSTER_SIZE

/-- The ordered list of data blocks `write` fills when writing `k`
blocks into the fresh file of `freshTouched`: blocks 1..min 5 k directly,
then (beyond five) blocks 7..k+1 behind the indirection block 6. -/
def freshBlocks (k : Nat) : List Nat :=
  List.range' 1 (min 5 k) ++ List.range' 7 (k - 5)

/-- C3 trace: the first `write f` of 6144 bytes after `format 1; touch f`. -/
def c3w1 : FSState × Msg := write freshTouched fName c6144

/-- C3 trace: the second, identical `write f` of 6144 bytes. -/
def c3w2 : FSState × Msg := write c3w1.1 fName c6144

/-- The inode of `f` after the first 6144-byte write: blocks 1..5 direct,
block 6 the indirection table (whose slot 0 points at block 7). -/
def c3T1 : Inode :=
  { id := 1, is_directory := false, references := 1, file_size := 6144,
    direct1 := 1, direct2 := 2, direct3 := 3, direct4 := 4, direct5 := 5,
    indirect1 := 6, indirect2 := 0 }

/-- The state after the first 6144-byte write (proved equal to `c3w1.1`). -/
def c3S1 : FSState :=
  { freshTouched with
      dataBitmap := onesZeros 8,
      dataRegion := writeContentLoop
        (ptrTable freshTouched.dataRegion 6 0 (List.range' 7 1))
        (List.range' 1 5 ++ List.range' 7 1) c6144 0,
      inodeTable := fun j => if j = 1 then c3T1 else freshTouched.inodeTable j }

/-- The state after the second 6144-byte write (proved equal to `c3w2.1`):
the direct blocks are reused but the indirect slot gets the fresh block 8,
leaving block 7 allocated yet unreferenced. -/
def c3S2 : FSState :=
  { c3S1 with
      dataBitmap := onesZeros 9,
      dataRegion := writeContentLoop
        (ptrTable c3S1.dataRegion 6 0 (List.range' 8 1))
        [1, 2, 3, 4, 5, 8] c6144 0,
      inodeTable := fun j => if j = 1 then c3T1 else c3S1.inodeTable j }

/-! ## Byte-map, serialization and allocator lemmas -/

theorem writeBytes_lt {m : Nat → Nat} {a x : Nat} (bs : List Nat) (h : x < a) :
    writeBytes m a bs x = m x := by
  unfold writeBytes
  rw [if_neg]
  omega

theorem writeBytes_ge {m : Nat → Nat} {a x : Nat} {bs : List Nat}
    (h : a + bs.length ≤ x) : writeBytes m a bs x = m x := by
  unfold writeBytes
  rw [if_neg]
  omega

theorem writeBytes_out {m : Nat → Nat} {a x : Nat} {bs : List Nat}
    (h : x < a ∨ a + bs.length ≤ x) : writeBytes m a bs x = m x := by
  rcases h with h | h
  · exact writeBytes_lt bs h
  · exact writeBytes_ge h

theorem writeBytes_in {m : Nat → Nat} {a x : Nat} {bs : List Nat}
    (h1 : a ≤ x) (h2 : x < a + bs.length) :
    writeBytes m a bs x = bs.getD (x - a) 0 := by
  unfold writeBytes
  rw [if_pos ⟨h1, h2⟩]

theorem readBytes_length (m : Nat → Nat) (a n : Nat) :
    (readBytes m a n).length = n := by
  simp [readBytes]

theorem readBytes_congr {m1 m2 : Nat → Nat} {a n : Nat}
    (h : ∀ i, i < n → m1 (a + i) = m2 (a + i)) :
    readBytes m1 a n = readBytes m2 a n := by
  unfold readBytes
  exact List.map_congr_left (fun i hi => h i (List.mem_range.mp hi))

theorem range_map_getD (bs : List Nat) :
    (List.range bs.length).map (fun i => bs.getD i 0) = bs := by
  apply List.ext_get
  · simp
  · intro i h1 h2
    simp only [List.get_eq_getElem, List.getElem_map, List.getElem_range]
    rw [List.getD_eq_getElem]

theorem readBytes_writeBytes_same (m : Nat → Nat) (a : Nat) (bs : List Nat) :
    readBytes (writeBytes m a bs) a bs.length = bs := by
  unfold readBytes
  calc (List.range bs.length).map (fun i => writeBytes m a bs (a + i))
      = (List.range bs.length).map (fun i => bs.getD i 0) := by
        apply List.map_congr_left
        intro i hi
        rw [writeBytes_in (by omega) (by have := List.mem_range.mp hi; omega)]
        congr 1
        omega
    _ = bs := range_map_getD bs

theorem readBytes_writeBytes_out {m : Nat → Nat} {a1 a2 n : Nat} {bs : List Nat}
    (h : a2 + n ≤ a1 ∨ a1 + bs.length ≤ a2) :
    readBytes (writeBytes m a1 bs) a2 n = readBytes m a2 n := by
  apply readBytes_congr
  intro i hi
  apply writeBytes_out
  omega

theorem enc32_length (v : Nat) : (enc32 v).length = 4 := rfl

theorem dec32_enc32 {v : Nat} (h : v < 4294967296) : dec32 (enc32 v) = v := by
  simp only [dec32, enc32]
  simp [List.getD]
  omega

theorem cString_nil : cString [] = [] := rfl

theorem cString_cons_zero (xs : List Nat) : cString (0 :: xs) = [] := by
  simp [cString]

theorem cString_cons_ne {x : Nat} (xs : List Nat) (hx : x ≠ 0) :
    cString (x :: xs) = x :: cString xs := by
  simp [cString, List.takeWhile_cons, hx]

theorem cString_append_zero (xs ys : List Nat) :
    cString (xs ++ 0 :: ys) = cString xs := by
  induction xs with
  | nil => simp [cString]
  | cons x xs ih =>
    by_cases hx : x = 0
    · subst hx
      rw [List.cons_append, cString_cons_zero, cString_cons_zero]
    · rw [List.cons_append, cString_cons_ne _ hx, cString_cons_ne _ hx, ih]

theorem cString_eq_self_iff (xs : List Nat) :
    cString xs = xs ↔ ∀ b ∈ xs, b ≠ 0 := by
  constructor
  · intro h b hb
    have hmem : b ∈ cString xs := by rw [h]; exact hb
    have := List.mem_takeWhile_imp hmem
    simpa using this
  · intro h
    induction xs with
    | nil => rfl
    | cons x xs ih =>
      have hx : x ≠ 0 := h x (by simp)
      rw [cString_cons_ne _ hx, ih (fun b hb => h b (by simp [hb]))]

theorem allocScan_spec :
    ∀ (bm : List Nat) (i : Nat) (bm' : List Nat),
      allocScan bm = some (i, bm') →
      bm.getD i 0 = 0 ∧ bm' = bm.set i 1 ∧ i < bm.length ∧
        ∀ j, j < i → bm.getD j 0 ≠ 0 := by
  intro bm
  induction bm with
  | nil => intro i bm' h; exact Option.noConfusion h
  | cons b rest ih =>
    intro i bm' h
    by_cases hb : b = 0
    · simp only [allocScan, hb, if_pos rfl] at h
      obtain ⟨h1, h2⟩ := Prod.mk.injEq .. ▸ (Option.some.injEq .. ▸ h)
      subst h1
      subst h2
      refine ⟨by simp [hb], by simp, by simp, fun j hj => absurd hj (by omega)⟩
    · simp only [allocScan, if_neg hb] at h
      rcases h' : allocScan rest with _ | ⟨i0, bm0⟩
      · rw [h'] at h; simp at h
      · rw [h'] at h
        simp only [Option.map_some', Option.some.injEq, Prod.mk.injEq] at h
        obtain ⟨h1, h2⟩ := h
        obtain ⟨g1, g2, g3, g4⟩ := ih i0 bm0 h'
        subst h1
        subst h2
        refine ⟨by simpa using g1, by simp [g2], by simpa using g3, ?_⟩
        intro j hj
        cases j with
        | zero => simpa using hb
        | succ j0 => simpa using g4 j0 (by omega)

theorem allocScan_onesLead :
    ∀ (m : Nat) (zs : List Nat),
      allocScan (List.replicate m 1 ++ 0 :: zs) =
        some (m, List.replicate m 1 ++ 1 :: zs) := by
  intro m
  induction m with
  | zero => intro zs; simp [allocScan]
  | succ m0 ih =>
    intro zs
    rw [List.replicate_succ, List.cons_append, List.cons_append]
    simp only [allocScan, if_neg (by omega : ¬(1 : Nat) = 0)]
    rw [ih zs]
    rfl

theorem allocScan_onesZeros {m : Nat} (h : m < 128) :
    allocScan (onesZeros m) = some (m, onesZeros (m + 1)) := by
  unfold onesZeros
  have h1 : 128 - m = (127 - m) + 1 := by omega
  have h2 : 128 - (m + 1) = 127 - m := by omega
  rw [h1, h2, List.replicate_succ]
  rw [allocScan_onesLead m (List.replicate (127 - m) 0)]
  rw [List.replicate_succ' m 1]
  simp

theorem onesZeros_getD_lt {m x : Nat} (hx : x < m) (_hm : m ≤ 128) :
    (onesZeros m).getD x 0 = 1 := by
  unfold onesZeros
  rw [List.getD_append _ _ _ _ (by simp; omega)]
  simp [List.getD_eq_getElem, hx]

theorem onesZeros_getD_ge {m x : Nat} (hx : m ≤ x) :
    (onesZeros m).getD x 0 = 0 := by
  unfold onesZeros
  by_cases hlt : x < 128
  · rw [List.getD_append_right _ _ _ _ (by simp; omega)]
    simp only [List.length_replicate]
    rw [List.getD_eq_getElem _ _ (by simp; omega)]
    simp
  · rw [List.getD_eq_default]
    simp
    omega

theorem readContentLoop_length_le (m : Nat → Nat) :
    ∀ (bs : List Nat) (fs tr : Nat),
      (readContentLoop m bs fs tr).length ≤ fs - tr := by
  intro bs
  induction bs with
  | nil => intro fs tr; simp [readContentLoop]
  | cons b rest ih =>
    intro fs tr
    unfold readContentLoop
    by_cases h : tr ≥ fs
    · simp [h]
    · rw [if_neg h]
      simp only [List.length_append, readBytes_length]
      have := ih fs (tr + min CLUSTER_SIZE (fs - tr))
      omega

/-! ## Frame and congruence lemmas for the write/read loops -/

theorem ptrTable_out (ind : Nat) :
    ∀ (ps : List Nat) (m0 : Nat → Nat) (i x : Nat),
      (x < dataBlockOffset ind + 4 * i ∨
        dataBlockOffset ind + 4 * (i + ps.length) ≤ x) →
      ptrTable m0 ind i ps x = m0 x := by
  intro ps
  induction ps with
  | nil => intro m0 i x _; rfl
  | cons p ps ih =>
    intro m0 i x hx
    simp only [List.length_cons] at hx
    show ptrTable (writeBytes m0 (dataBlockOffset ind + 4 * i) (enc32 p)) ind (i + 1) ps x =
      m0 x
    rw [ih _ (i + 1) x (by omega)]
    apply writeBytes_out
    rw [enc32_length]
    omega

theorem ptrTable_slot (ind : Nat) :
    ∀ (ps : List Nat) (m0 : Nat → Nat) (i j : Nat), j < ps.length →
      readBytes (ptrTable m0 ind i ps) (dataBlockOffset ind + 4 * (i + j)) 4 =
        enc32 (ps.getD j 0) := by
  intro ps
  induction ps with
  | nil => intro m0 i j h; exact absurd h (by simp)
  | cons p ps ih =>
    intro m0 i j hj
    show readBytes (ptrTable (writeBytes m0 (dataBlockOffset ind + 4 * i) (enc32 p))
      ind (i + 1) ps) (dataBlockOffset ind + 4 * (i + j)) 4 = enc32 ((p :: ps).getD j 0)
    cases j with
    | zero =>
      rw [readBytes_congr (fun b hb => ptrTable_out ind ps _ (i + 1) _ (Or.inl (by omega)))]
      have h4 : (4 : Nat) = (enc32 p).length := (enc32_length p).symm
      rw [show i + 0 = i from rfl, h4]
      exact readBytes_writeBytes_same m0 (dataBlockOffset ind + 4 * i) (enc32 p)
    | succ j0 =>
      have := ih (writeBytes m0 (dataBlockOffset ind + 4 * i) (enc32 p)) (i + 1) j0
        (by simpa using hj)
      rw [show i + (j0 + 1) = (i + 1) + j0 from by omega]
      simpa using this

theorem writeContentLoop_out :
    ∀ (bs : List Nat) (m : Nat → Nat) (content : List Nat) (w x : Nat),
      (∀ b ∈ bs, x < dataBlockOffset b ∨ dataBlockOffset b + CLUSTER_SIZE ≤ x) →
      writeContentLoop m bs content w x = m x := by
  intro bs
  induction bs with
  | nil => intro m c w x _; rfl
  | cons b rest ih =>
    intro m c w x hx
    simp only [writeContentLoop]
    rw [ih _ c _ x (fun b' hb' => hx b' (List.mem_cons_of_mem _ hb'))]
    apply writeBytes_out
    have hb := hx b (List.mem_cons_self b rest)
    have hlen : ((c.drop w).take (min CLUSTER_SIZE (c.length - w))).length ≤ CLUSTER_SIZE := by
      rw [List.length_take]
      have := Nat.min_le_left CLUSTER_SIZE (c.length - w)
      omega
    omega

theorem content_roundtrip :
    ∀ (bs : List Nat) (m : Nat → Nat) (content : List Nat) (w : Nat),
      bs.Nodup → content.length ≤ w + CLUSTER_SIZE * bs.length →
      readContentLoop (writeContentLoop m bs content w) bs content.length w =
        content.drop w := by
  intro bs
  induction bs with
  | nil =>
    intro m c w _ hlen
    simp only [readContentLoop, writeContentLoop]
    symm
    rw [List.drop_eq_nil_iff]
    simpa using hlen
  | cons b rest ih =>
    intro m c w hnd hlen
    rw [List.nodup_cons] at hnd
    obtain ⟨hb, hnd'⟩ := hnd
    simp only [writeContentLoop, readContentLoop]
    by_cases hw : w ≥ c.length
    · rw [if_pos hw]
      symm
      rw [List.drop_eq_nil_iff]
      omega
    · rw [if_neg hw]
      have htw1 : min CLUSTER_SIZE (c.length - w) ≤ CLUSTER_SIZE :=
        Nat.min_le_left _ _
      have htw2 : min CLUSTER_SIZE (c.length - w) ≤ c.length - w :=
        Nat.min_le_right _ _
      have hchunk : ((c.drop w).take (min CLUSTER_SIZE (c.length - w))).length =
          min CLUSTER_SIZE (c.length - w) := by
        rw [List.length_take, List.length_drop]
        omega
      have hfirst : readBytes
          (writeContentLoop (writeBytes m (dataBlockOffset b)
            ((c.drop w).take (min CLUSTER_SIZE (c.length - w)))) rest c
            (w + min CLUSTER_SIZE (c.length - w)))
          (dataBlockOffset b) (min CLUSTER_SIZE (c.length - w)) =
          (c.drop w).take (min CLUSTER_SIZE (c.length - w)) := by
        have hsame := readBytes_writeBytes_same m (dataBlockOffset b)
          ((c.drop w).take (min CLUSTER_SIZE (c.length - w)))
        rw [hchunk] at hsame
        rw [readBytes_congr (fun idx hidx => writeContentLoop_out rest _ c _ _ ?_)]
        · exact hsame
        · intro b' hb'
          have hne : b' ≠ b := fun h => hb (h ▸ hb')
          simp only [dataBlockOffset, CLUSTER_SIZE] at *
          omega
      rw [hfirst]
      have hlen' : c.length ≤ (w + min CLUSTER_SIZE (c.length - w)) +
          CLUSTER_SIZE * rest.length := by
        rcases Nat.le_total (c.length - w) CLUSTER_SIZE with hcase | hcase
        · rw [Nat.min_eq_right hcase]
          omega
        · rw [Nat.min_eq_left hcase]
          simp only [List.length_cons] at hlen
          have : CLUSTER_SIZE * (rest.length + 1) =
              CLUSTER_SIZE * rest.length + CLUSTER_SIZE := by ring
          omega
      have hrec := ih (writeBytes m (dataBlockOffset b)
          ((c.drop w).take (min CLUSTER_SIZE (c.length - w)))) c
          (w + min CLUSTER_SIZE (c.length - w)) hnd' hlen'
      rw [hrec]
      rw [show c.drop (w + min CLUSTER_SIZE (c.length - w)) =
        (c.drop w).drop (min CLUSTER_SIZE (c.length - w)) from (List.drop_drop _ _ _).symm]
      exact List.take_append_drop _ _

theorem findEntryAux_congr {m1 m2 : Nat → Nat} (b : Nat) (name : List Nat) :
    ∀ (n i : Nat),
      (∀ x, dataBlockOffset b ≤ x →
        x < dataBlockOffset b + (i + n) * sizeofDirectoryItem → m1 x = m2 x) →
      findEntryAux m1 b name i n = findEntryAux m2 b name i n := by
  intro n
  induction n with
  | zero => intro i _; rfl
  | succ n0 ih =>
    intro i h
    simp only [findEntryAux]
    have hread : readItem m1 b i = readItem m2 b i := by
      unfold readItem
      congr 1
      apply readBytes_congr
      intro j hj
      apply h
      · simp only [sizeofDirectoryItem]; omega
      · simp only [sizeofDirectoryItem] at *; omega
    rw [hread]
    split
    · rfl
    · exact ih (i + 1) (fun x hx1 hx2 => h x hx1 (by
        simp only [sizeofDirectoryItem] at *; omega))

theorem ptrScanAux_spec (m : Nat → Nat) (b : Nat) (f : Nat → Nat) :
    ∀ (c i fuel : Nat), c < fuel →
      (∀ j, j < c →
        dec32 (readBytes m (dataBlockOffset b + 4 * (i + j)) 4) = f (i + j) ∧
          0 < f (i + j)) →
      dec32 (readBytes m (dataBlockOffset b + 4 * (i + c)) 4) = 0 →
      ptrScanAux m b i fuel = (List.range' i c).map f := by
  intro c
  induction c with
  | zero =>
    intro i fuel hfuel hj h0
    cases fuel with
    | zero => omega
    | succ fl =>
      simp only [ptrScanAux]
      rw [show i + 0 = i from rfl] at h0
      rw [if_neg (by omega)]
      simp
  | succ c0 ih =>
    intro i fuel hfuel hj h0
    cases fuel with
    | zero => omega
    | succ fl =>
      simp only [ptrScanAux]
      obtain ⟨hr, hpos⟩ := hj 0 (by omega)
      rw [show i + 0 = i from rfl] at hr hpos
      rw [hr, if_pos hpos]
      have hrec := ih (i + 1) fl (by omega)
        (fun j hjlt => by
          have := hj (j + 1) (by omega)
          rw [show i + (j + 1) = (i + 1) + j from by omega] at this
          exact this)
        (by rw [show (i + 1) + c0 = i + (c0 + 1) from by omega]; exact h0)
      rw [hrec]
      rw [List.range'_succ]
      simp

/-! ## Allocation-loop characterizations -/

theorem allocateFreeDataBlock_onesZeros {s : FSState} {m : Nat}
    (hbm : s.dataBitmap = onesZeros m) (hm : m < 128) :
    allocateFreeDataBlock s = ({ s with dataBitmap := onesZeros (m + 1) }, some m) := by
  unfold allocateFreeDataBlock
  rw [hbm, allocScan_onesZeros hm]

theorem writeAllocDirectAux_fresh (t : Inode) (hz : ∀ i, directSlot t i = 0) :
    ∀ (n : Nat) (s : FSState) (i m : Nat),
      s.dataBitmap = onesZeros m → m + n ≤ 128 →
      writeAllocDirectAux t s i n =
        ({ s with dataBitmap := onesZeros (m + n) }, some (List.range' m n)) := by
  intro n
  induction n with
  | zero =>
    intro s i m hbm _
    have hs : ({ s with dataBitmap := onesZeros (m + 0) } : FSState) = s := by
      rw [Nat.add_zero, ← hbm]
    rw [hs]
    rfl
  | succ n0 ih =>
    intro s i m hbm hle
    have harith : m + 1 + n0 = m + (n0 + 1) := by omega
    simp only [writeAllocDirectAux]
    rw [hz i, if_neg (by decide), allocateFreeDataBlock_onesZeros hbm (by omega)]
    dsimp only
    rw [ih ({ s with dataBitmap := onesZeros (m + 1) }) (i + 1) (m + 1) rfl (by omega)]
    dsimp only
    rw [List.range'_succ]
    simp only [harith]

theorem writeAllocDirectAux_reuse (t : Inode) :
    ∀ (n : Nat) (s : FSState) (i : Nat),
      (∀ j, j < n → directSlot t (i + j) > 0) →
      writeAllocDirectAux t s i n =
        (s, some ((List.range' i n).map (directSlot t))) := by
  intro n
  induction n with
  | zero => intro s i _; rfl
  | succ n0 ih =>
    intro s i hpos
    have h0 : directSlot t i > 0 := by simpa using hpos 0 (by omega)
    simp only [writeAllocDirectAux]
    rw [if_pos h0]
    dsimp only
    rw [ih s (i + 1) (fun j hj => by
      have := hpos (j + 1) (by omega)
      rwa [show i + (j + 1) = (i + 1) + j from by omega] at this)]
    dsimp only
    rw [List.range'_succ]
    simp

theorem writeAllocPtrLoop_fresh :
    ∀ (cnt : Nat) (s : FSState) (ind i m : Nat),
      s.dataBitmap = onesZeros m → m + cnt ≤ 128 →
      writeAllocPtrLoop s ind i cnt =
        ({ s with
            dataBitmap := onesZeros (m + cnt),
            dataRegion := ptrTable s.dataRegion ind i (List.range' m cnt) },
          some (List.range' m cnt)) := by
  intro cnt
  induction cnt with
  | zero =>
    intro s ind i m hbm _
    have hs : ({ s with
        dataBitmap := onesZeros (m + 0),
        dataRegion := ptrTable s.dataRegion ind i (List.range' m 0) } : FSState) = s := by
      rw [Nat.add_zero, ← hbm]
      rfl
    rw [hs]
    rfl
  | succ c ih =>
    intro s ind i m hbm hle
    have harith : m + 1 + c = m + (c + 1) := by omega
    simp only [writeAllocPtrLoop]
    rw [allocateFreeDataBlock_onesZeros hbm (by omega)]
    dsimp only
    rw [ih _ ind (i + 1) (m + 1) rfl (by omega)]
    dsimp only
    rw [List.range'_succ]
    simp only [ptrTable, harith]

theorem fInode_slots : ∀ i, directSlot fInode i = 0 := by
  intro i
  rcases i with _ | _ | _ | _ | _ | i <;> rfl

theorem writeAlloc_fresh_le5 (s : FSState) (t : Inode) (k m : Nat)
    (hz : ∀ i, directSlot t i = 0)
    (hbm : s.dataBitmap = onesZeros m)
    (hk1 : 1 ≤ k) (hk5 : k ≤ 5) (hm : m + k ≤ 128) :
    writeAlloc s t k =
      ({ s with dataBitmap := onesZeros (m + k) }, some (t, List.range' m k)) := by
  unfold writeAlloc writeAllocDirect
  rw [Nat.min_eq_right hk5]
  rw [writeAllocDirectAux_fresh t hz k s 0 m hbm (by omega)]
  dsimp only
  rw [if_neg (by omega : ¬ k > 5)]

theorem writeAlloc_fresh_gt5 (s : FSState) (t : Inode) (k m : Nat)
    (hz : ∀ i, directSlot t i = 0)
    (hind1 : t.indirect1 = 0)
    (hbm : s.dataBitmap = onesZeros m)
    (hk : 5 < k) (hk261 : k ≤ 261) (hm : m + k + 1 ≤ 128) :
    writeAlloc s t k =
      ({ s with
          dataBitmap := onesZeros (m + k + 1),
          dataRegion := ptrTable s.dataRegion (m + 5) 0 (List.range' (m + 6) (k - 5)) },
        some ({ t with indirect1 := m + 5 },
          List.range' m 5 ++ List.range' (m + 6) (k - 5))) := by
  unfold writeAlloc writeAllocDirect
  rw [Nat.min_eq_left (by omega : (5 : Nat) ≤ k)]
  rw [writeAllocDirectAux_fresh t hz 5 s 0 m hbm (by omega)]
  dsimp only
  rw [if_pos hk, if_pos hind1]
  rw [allocateFreeDataBlock_onesZeros
    (show ({ s with dataBitmap := onesZeros (m + 5) } : FSState).dataBitmap =
      onesZeros (m + 5) from rfl) (by omega)]
  dsimp only
  rw [Nat.min_eq_right (by omega : k - 5 ≤ 256)]
  rw [writeAllocPtrLoop_fresh (k - 5) _ (m + 5) 0 (m + 6) rfl (by omega)]
  dsimp only
  rw [if_neg (by omega : ¬ k - 5 > 256)]
  have h1 : m + 6 + (k - 5) = m + k + 1 := by omega
  rw [h1]

theorem writeAlloc_reuse_ind (s : FSState) (t : Inode) (m : Nat)
    (hpos : ∀ j, j < 5 → directSlot t j > 0)
    (hind1 : t.indirect1 ≠ 0)
    (hbm : s.dataBitmap = onesZeros m) (hm : m + 1 ≤ 128) :
    writeAlloc s t 6 =
      ({ s with
          dataBitmap := onesZeros (m + 1),
          dataRegion := ptrTable s.dataRegion t.indirect1 0 (List.range' m 1) },
        some ({ t with indirect1 := t.indirect1 },
          (List.range' 0 5).map (directSlot t) ++ List.range' m 1)) := by
  unfold writeAlloc writeAllocDirect
  rw [show min 5 6 = 5 from rfl]
  rw [writeAllocDirectAux_reuse t 5 s 0 (fun j hj => by simpa using hpos j hj)]
  dsimp only
  rw [if_pos (by omega : (6 : Nat) > 5), if_neg hind1]
  dsimp only
  rw [show (6 : Nat) - 5 = 1 from rfl, show min 256 1 = 1 from rfl]
  rw [writeAllocPtrLoop_fresh 1 s t.indirect1 0 m hbm (by omega)]
  dsimp only
  rw [if_neg (by decide : ¬ (1 : Nat) > 256)]

/-! ## The fresh state after `format 1; touch f` -/

theorem freshTouched_dataBitmap : freshTouched.dataBitmap = onesZeros 1 := by decide

theorem freshTouched_root : readInode freshTouched 0 = rootAfterTouch := by decide

theorem freshTouched_f : readInode freshTouched 1 = fInode := by decide

theorem freshTouched_region_eq :
    freshTouched.dataRegion =
      writeBytes rootRegion (dataBlockOffset 0 + 2 * sizeofDirectoryItem)
        (encItem fEntry) := rfl

theorem rootRegion_hi (a : Nat) (ha : 32 ≤ a) : rootRegion a = 0 := by
  unfold rootRegion
  rw [writeBytes_ge (by
    have h16 : (encItem rootDotDot).length = 16 := by decide
    have hs : sizeofDirectoryItem = 16 := rfl
    omega)]
  rw [writeBytes_ge (by
    have h16 : (encItem rootDot).length = 16 := by decide
    omega)]

theorem freshTouched_region_hi (a : Nat) (ha : 48 ≤ a) :
    freshTouched.dataRegion a = 0 := by
  rw [freshTouched_region_eq]
  rw [writeBytes_ge (by
    have h16 : (encItem fEntry).length = 16 := by decide
    have hoff : dataBlockOffset 0 + 2 * sizeofDirectoryItem = 32 := rfl
    omega)]
  exact rootRegion_hi a (by omega)

theorem blocksFor_pos {C : List Nat} (h1 : 1 ≤ C.length) : 1 ≤ blocksFor C := by
  simp only [blocksFor, CLUSTER_SIZE]
  omega

/-- Characterization of `write f C` on the fresh state when the content
fits the direct slots: blocks 1..k are allocated and filled in order. -/
theorem write_fresh_spec_le5 (C : List Nat) (h1 : 1 ≤ C.length)
    (hk5 : blocksFor C ≤ 5) :
    write freshTouched fName C =
      ({ freshTouched with
          dataBitmap := onesZeros (1 + blocksFor C),
          dataRegion := writeContentLoop freshTouched.dataRegion
            (List.range' 1 (blocksFor C)) C 0,
          inodeTable := fun j => if j = 1 then
              { updateDirects fInode (List.range' 1 (blocksFor C)) with
                  file_size := C.length }
            else freshTouched.inodeTable j },
        Msg.ok) := by
  have hCne : ¬ C = [] := by
    intro h
    rw [h] at h1
    simp at h1
  unfold write
  rw [if_neg (by decide : ¬ fName = ([] : List Nat))]
  rw [if_neg hCne]
  dsimp only
  rw [show readInode freshTouched freshTouched.currentDirInode = rootAfterTouch from
    by decide]
  rw [if_neg (by decide : ¬ (!rootAfterTouch.is_directory) = true)]
  rw [show findEntry freshTouched rootAfterTouch fName = some (2, fEntry) from by decide]
  dsimp only
  rw [show readInode freshTouched fEntry.inode = fInode from by decide]
  rw [if_neg (by decide : ¬ fInode.is_directory = true)]
  rw [show (C.length + CLUSTER_SIZE - 1) / CLUSTER_SIZE = blocksFor C from rfl]
  rw [writeAlloc_fresh_le5 freshTouched fInode (blocksFor C) 1 fInode_slots
    freshTouched_dataBitmap (blocksFor_pos h1) hk5 (by omega)]
  dsimp only
  rfl

/-- Characterization of `write f C` on the fresh state when the content
spills into the first indirection region: blocks 1..5 direct, block 6 as
the indirection table holding pointers 7..k+1, blocks 7..k+1 filled. -/
theorem write_fresh_spec_gt5 (C : List Nat) (hk : 5 < blocksFor C)
    (hk126 : blocksFor C ≤ 126) :
    write freshTouched fName C =
      ({ freshTouched with
          dataBitmap := onesZeros (blocksFor C + 2),
          dataRegion := writeContentLoop
            (ptrTable freshTouched.dataRegion 6 0 (List.range' 7 (blocksFor C - 5)))
            (List.range' 1 5 ++ List.range' 7 (blocksFor C - 5)) C 0,
          inodeTable := fun j => if j = 1 then
              { updateDirects { fInode with indirect1 := 6 }
                  (List.range' 1 5 ++ List.range' 7 (blocksFor C - 5)) with
                  file_size := C.length }
            else freshTouched.inodeTable j },
        Msg.ok) := by
  have h1 : 1 ≤ C.length := by
    by_contra h
    have : C.length = 0 := by omega
    simp only [blocksFor, CLUSTER_SIZE, this] at hk
    omega
  have hCne : ¬ C = [] := by
    intro h
    rw [h] at h1
    simp at h1
  unfold write
  rw [if_neg (by decide : ¬ fName = ([] : List Nat))]
  rw [if_neg hCne]
  dsimp only
  rw [show readInode freshTouched freshTouched.currentDirInode = rootAfterTouch from
    by decide]
  rw [if_neg (by decide : ¬ (!rootAfterTouch.is_directory) = true)]
  rw [show findEntry freshTouched rootAfterTouch fName = some (2, fEntry) from by decide]
  dsimp only
  rw [show readInode freshTouched fEntry.inode = fInode from by decide]
  rw [if_neg (by decide : ¬ fInode.is_directory = true)]
  rw [show (C.length + CLUSTER_SIZE - 1) / CLUSTER_SIZE = blocksFor C from rfl]
  rw [writeAlloc_fresh_gt5 freshTouched fInode (blocksFor C) 1 fInode_slots rfl
    freshTouched_dataBitmap hk (by omega) (by omega)]
  rw [show (1 : Nat) + 5 = 6 from rfl, show (1 : Nat) + 6 = 7 from rfl,
    show 1 + blocksFor C + 1 = blocksFor C + 2 from by omega]
  dsimp only
  rfl

/-! ## Operation inversion lemmas -/

theorem allocateFreeInode_fields {s s1 : FSState} {o : Option Nat}
    (h : allocateFreeInode s = (s1, o)) :
    s1.dataRegion = s.dataRegion ∧ s1.inodeTable = s.inodeTable ∧
    s1.currentDirInode = s.currentDirInode ∧ s1.dataBitmap = s.dataBitmap := by
  unfold allocateFreeInode at h
  rcases hs : allocScan s.inodeBitmap with _ | ⟨i, bm⟩ <;> rw [hs] at h <;>
    cases h <;> exact ⟨rfl, rfl, rfl, rfl⟩

theorem allocateFreeDataBlock_fields {s s1 : FSState} {o : Option Nat}
    (h : allocateFreeDataBlock s = (s1, o)) :
    s1.dataRegion = s.dataRegion ∧ s1.inodeTable = s.inodeTable ∧
    s1.currentDirInode = s.currentDirInode ∧ s1.inodeBitmap = s.inodeBitmap := by
  unfold allocateFreeDataBlock at h
  rcases hs : allocScan s.dataBitmap with _ | ⟨i, bm⟩ <;> rw [hs] at h <;>
    cases h <;> exact ⟨rfl, rfl, rfl, rfl⟩

theorem allocateFreeDataBlock_spec {s s1 : FSState} {b : Nat}
    (h : allocateFreeDataBlock s = (s1, some b)) :
    s.dataBitmap.getD b 0 = 0 ∧ s1.dataBitmap = s.dataBitmap.set b 1 ∧
    b < s.dataBitmap.length := by
  unfold allocateFreeDataBlock at h
  rcases hs : allocScan s.dataBitmap with _ | ⟨i, bm⟩ <;> rw [hs] at h
  · cases h
  · cases h
    obtain ⟨g1, g2, g3, _⟩ := allocScan_spec _ _ _ hs
    exact ⟨g1, g2, g3⟩

theorem cd_fields (s : FSState) (name : List Nat) :
    (cd s name).1.dataRegion = s.dataRegion ∧
    (cd s name).1.inodeTable = s.inodeTable ∧
    (cd s name).1.inodeBitmap = s.inodeBitmap ∧
    (cd s name).1.dataBitmap = s.dataBitmap := by
  unfold cd
  split
  · exact ⟨rfl, rfl, rfl, rfl⟩
  · dsimp only
    split
    · exact ⟨rfl, rfl, rfl, rfl⟩
    · split <;> exact ⟨rfl, rfl, rfl, rfl⟩

theorem cd_dotdot_cursor (s : FSState) :
    (cd s dotdotName).1.currentDirInode =
      (decItem (readBytes s.dataRegion
        (dataBlockOffset (readInode s s.currentDirInode).direct1 +
          sizeofDirectoryItem) sizeofDirectoryItem)).inode := by
  unfold cd
  rw [if_pos (show dotdotName = [46, 46] from rfl)]

theorem nameBuffer_length (name : List Nat) : (nameBuffer name).length = 12 := by
  simp only [nameBuffer, List.length_append, List.length_replicate, List.length_take,
    MAX_NAME_LENGTH]
  omega

theorem encItem_nameBuffer_length (id : Nat) (name : List Nat) :
    (encItem { inode := id, item_name := nameBuffer name }).length =
      sizeofDirectoryItem := by
  simp only [encItem, List.length_append, enc32_length, nameBuffer_length]
  rfl

/-- Inversion of a successful `touch`: the new entry's bytes are written
at offset `file_size` of the parent's first block (and nowhere else in
the data region), and the parent's size grows by one entry. -/
theorem touch_ok_spec (s : FSState) (name : List Nat) (id : Nat)
    (hok : (touch s name).2 = Msg.ok)
    (hid : (allocateFreeInode s).2 = some id) :
    (touch s name).1.dataRegion = writeBytes s.dataRegion
        (dataBlockOffset (readInode s s.currentDirInode).direct1 +
          (readInode s s.currentDirInode).file_size)
        (encItem { inode := id, item_name := nameBuffer name }) ∧
    (readInode (touch s name).1 s.currentDirInode).file_size =
      (readInode s s.currentDirInode).file_size + sizeofDirectoryItem := by
  unfold touch at hok ⊢
  split at hok
  case isTrue => exact Msg.noConfusion hok
  case isFalse h1 =>
    rw [if_neg h1]
    split at hok
    case isTrue => exact Msg.noConfusion hok
    case isFalse h2 =>
      rw [if_neg h2]
      rcases halloc : allocateFreeInode s with ⟨s1, o⟩
      rw [halloc] at hok
      rw [halloc] at hid
      obtain ⟨hreg1, htab1, hcur1, _⟩ := allocateFreeInode_fields halloc
      have hid' : o = some id := hid
      cases o with
      | none => exact Option.noConfusion hid'
      | some id0 =>
        have hid0 : id0 = id := Option.some.inj hid'
        subst hid0
        dsimp only at hok ⊢
        simp only [readInode, writeInode] at hok ⊢
        rw [hcur1, htab1] at hok ⊢
        by_cases hpar : s.currentDirInode = id0
        · rw [if_pos hpar] at hok
          exact Msg.noConfusion hok
        · rw [if_neg hpar] at hok ⊢
          by_cases hdir : (s.inodeTable s.currentDirInode).is_directory
          · rw [if_neg (by simp [hdir])] at hok ⊢
            rw [hreg1]
            refine ⟨rfl, ?_⟩
            simp [readInode]
          · rw [if_pos (by simp [hdir])] at hok
            exact Msg.noConfusion hok

/-- Claim C7 amended: every successful `touch` append writes the new
DirectoryItem at byte offset `file_size` from the start of the parent
directory's first data block, leaving all other data-region bytes
untouched, and increments `file_size` by one entry; the write lies
inside that block whenever `file_size + sizeof(DirectoryItem) ≤
clusterSize` at append time — a bound the code never checks, so a 65th
entry lands in the following block (see the counterexample). -/
theorem C7_append_offset_amended (s : FSState) (name : List Nat) (id : Nat)
    (hok : (touch s name).2 = Msg.ok)
    (hid : (allocateFreeInode s).2 = some id) :
    readBytes (touch s name).1.dataRegion
        (dataBlockOffset (readInode s s.currentDirInode).direct1 +
          (readInode s s.currentDirInode).file_size) sizeofDirectoryItem =
      encItem { inode := id, item_name := nameBuffer name } ∧
    (∀ a, a < dataBlockOffset (readInode s s.currentDirInode).direct1 +
            (readInode s s.currentDirInode).file_size ∨
          dataBlockOffset (readInode s s.currentDirInode).direct1 +
            (readInode s s.currentDirInode).file_size + sizeofDirectoryItem ≤ a →
      (touch s name).1.dataRegion a = s.dataRegion a) ∧
    (readInode (touch s name).1 s.currentDirInode).file_size =
      (readInode s s.currentDirInode).file_size + sizeofDirectoryItem ∧
    ((readInode s s.currentDirInode).file_size + sizeofDirectoryItem ≤ CLUSTER_SIZE →
      ∀ j, j < sizeofDirectoryItem →
        (dataBlockOffset (readInode s s.currentDirInode).direct1 +
            (readInode s s.currentDirInode).file_size + j) / CLUSTER_SIZE =
          (readInode s s.currentDirInode).direct1) := by
  obtain ⟨hreg, hfs⟩ := touch_ok_spec s name id hok hid
  refine ⟨?_, ?_, hfs, ?_⟩
  · rw [hreg]
    rw [show (sizeofDirectoryItem : Nat) =
      (encItem { inode := id, item_name := nameBuffer name }).length from
      (encItem_nameBuffer_length id name).symm]
    exact readBytes_writeBytes_same _ _ _
  · intro a ha
    rw [hreg]
    apply writeBytes_out
    rw [encItem_nameBuffer_length]
    omega
  · intro hfit j hj
    simp only [dataBlockOffset, CLUSTER_SIZE, sizeofDirectoryItem] at *
    omega

/-- Witness for C7: the first touch after `format 1`. -/
theorem C7_append_offset_witness :
    (touch (format 1) nA).2 = Msg.ok ∧
    (readInode (touch (format 1) nA).1 (format 1).currentDirInode).file_size =
      (readInode (format 1) (format 1).currentDirInode).file_size +
        sizeofDirectoryItem :=
  ⟨by decide,
    (C7_append_offset_amended (format 1) nA 1 (by decide) (by decide)).2.2.1⟩

/-- What a successful `cat` prints: the C string of the reconstruction
buffer (the reconstructed bytes followed by at least one NUL) and a
newline. -/
theorem cat_output (s : FSState) (name : List Nat) (i : Nat)
    (it : DirectoryItem)
    (hname : name ≠ [])
    (hdir : (readInode s s.currentDirInode).is_directory = true)
    (hfind : findEntry s (readInode s s.currentDirInode) name = some (i, it))
    (hfile : (readInode s it.inode).is_directory = false)
    (hsize : (readInode s it.inode).file_size ≠ 0)
    (hblk : (readInode s it.inode).direct1 ≠ 0) :
    (cat s name).2 =
      Msg.printed (cString (catContent s (readInode s it.inode)) ++ [10]) := by
  have hlen : (catContent s (readInode s it.inode)).length ≤
      (readInode s it.inode).file_size := by
    have := readContentLoop_length_le s.dataRegion
      (catBlockList s.dataRegion (readInode s it.inode))
      (readInode s it.inode).file_size 0
    simpa [catContent] using this
  unfold cat
  rw [if_neg hname]
  dsimp only
  rw [if_neg (by simp [hdir]), hfind]
  dsimp only
  rw [if_neg (by simp [hfile]), if_neg (by simp [hsize, hblk])]
  have hrew : (readInode s it.inode).file_size + 1 -
      (catContent s (readInode s it.inode)).length =
      ((readInode s it.inode).file_size -
        (catContent s (readInode s it.inode)).length) + 1 := by omega
  show Msg.printed _ = Msg.printed _
  congr 1
  show cString (catContent s (readInode s it.inode) ++
      List.replicate ((readInode s it.inode).file_size + 1 -
        (catContent s (readInode s it.inode)).length) 0) ++ [10] =
    cString (catContent s (readInode s it.inode)) ++ [10]
  rw [hrew, List.replicate_succ]
  rw [cString_append_zero]

/-- The direct slots after `updateDirects`, field by field. -/
theorem updateDirects_spec (t : Inode) (bl : List Nat) :
    updateDirects t bl =
      { t with
        direct1 := if bl.length ≥ 1 then bl.getD 0 0 else t.direct1,
        direct2 := if bl.length ≥ 2 then bl.getD 1 0 else t.direct2,
        direct3 := if bl.length ≥ 3 then bl.getD 2 0 else t.direct3,
        direct4 := if bl.length ≥ 4 then bl.getD 3 0 else t.direct4,
        direct5 := if bl.length ≥ 5 then bl.getD 4 0 else t.direct5 } := by
  unfold updateDirects
  split_ifs <;> rfl

theorem range'_getD {a n j : Nat} (hj : j < n) :
    (List.range' a n).getD j 0 = a + j := by
  rw [List.getD_eq_getElem _ _ (by simp [List.length_range']; omega)]
  rw [List.getElem_range']
  omega

theorem dec32_all_zero {m : Nat → Nat} {a : Nat} (h : ∀ i, i < 4 → m (a + i) = 0) :
    dec32 (readBytes m a 4) = 0 := by
  rw [show readBytes m a 4 = [m (a + 0), m (a + 1), m (a + 2), m (a + 3)] from rfl]
  rw [h 0 (by omega), h 1 (by omega), h 2 (by omega), h 3 (by omega)]
  rfl

/-- The block list `cat` rebuilds for the fresh file after a ≤5-block
write: exactly the direct blocks 1..k, in order. -/
theorem fresh_catBlockList_le5 (R : Nat → Nat) (fs k : Nat)
    (hk1 : 1 ≤ k) (hk5 : k ≤ 5) :
    catBlockList R
      { updateDirects fInode (List.range' 1 k) with file_size := fs } =
      List.range' 1 k := by
  interval_cases k <;> rfl

/-- Content written to pairwise-distinct blocks reads back unchanged
(`write` STEP 5 then `cat` STEP 5, over the same block list). -/
theorem roundtrip_zero (bs : List Nat) (m : Nat → Nat) (C : List Nat)
    (hnd : bs.Nodup) (hlen : C.length ≤ CLUSTER_SIZE * bs.length) :
    readContentLoop (writeContentLoop m bs C 0) bs C.length 0 = C := by
  have := content_roundtrip bs m C 0 hnd (by omega)
  simpa using this

/-- `cat f` after a ≤5-block `write f C` on the fresh state prints
exactly `C` and a newline. -/
theorem cat_after_write_le5 (C : List Nat) (h1 : 1 ≤ C.length)
    (hk5 : blocksFor C ≤ 5) (h3 : ∀ b ∈ C, b ≠ 0) :
    (cat (write freshTouched fName C).1 fName).2 = Msg.printed (C ++ [10]) := by
  rw [write_fresh_spec_le5 C h1 hk5]
  have hR48 : ∀ x, x < 48 →
      writeContentLoop freshTouched.dataRegion (List.range' 1 (blocksFor C)) C 0 x =
        freshTouched.dataRegion x := by
    intro x hx
    apply writeContentLoop_out
    intro b hb
    have hb1 : 1 ≤ b := (List.mem_range'_1.mp hb).1
    simp only [dataBlockOffset, CLUSTER_SIZE]
    omega
  have hfind : findEntry (write freshTouched fName C).1 rootAfterTouch fName =
      some (2, fEntry) := by
    rw [write_fresh_spec_le5 C h1 hk5]
    unfold findEntry
    rw [show rootAfterTouch.file_size / sizeofDirectoryItem = 3 from rfl]
    show findEntryAux
      (writeContentLoop freshTouched.dataRegion (List.range' 1 (blocksFor C)) C 0)
      rootAfterTouch.direct1 fName 0 3 = some (2, fEntry)
    rw [show rootAfterTouch.direct1 = 0 from rfl]
    rw [findEntryAux_congr 0 fName 3 0 (fun x hx1 hx2 => hR48 x (by
      simp only [dataBlockOffset, sizeofDirectoryItem] at hx2
      omega))]
    decide
  have hcat := cat_output
    ({ freshTouched with
        dataBitmap := onesZeros (1 + blocksFor C),
        dataRegion := writeContentLoop freshTouched.dataRegion
          (List.range' 1 (blocksFor C)) C 0,
        inodeTable := fun j => if j = 1 then
            { updateDirects fInode (List.range' 1 (blocksFor C)) with
                file_size := C.length }
          else freshTouched.inodeTable j } : FSState)
    fName 2 fEntry (by decide) rfl
    (by rw [write_fresh_spec_le5 C h1 hk5] at hfind; exact hfind)
    (by
      show ({ updateDirects fInode (List.range' 1 (blocksFor C)) with
        file_size := C.length } : Inode).is_directory = false
      rw [updateDirects_spec]
      rfl)
    (by
      show ¬ C.length = 0
      omega)
    (by
      show ¬ ({ updateDirects fInode (List.range' 1 (blocksFor C)) with
        file_size := C.length } : Inode).direct1 = 0
      rw [updateDirects_spec]
      show ¬ (if (List.range' 1 (blocksFor C)).length ≥ 1 then
        (List.range' 1 (blocksFor C)).getD 0 0 else fInode.direct1) = 0
      rw [if_pos (by rw [List.length_range']; exact blocksFor_pos h1)]
      rw [range'_getD (by exact blocksFor_pos h1)]
      omega)
  rw [hcat]
  congr 1
  have hbl := fresh_catBlockList_le5
    (writeContentLoop freshTouched.dataRegion (List.range' 1 (blocksFor C)) C 0)
    C.length (blocksFor C) (blocksFor_pos h1) hk5
  show cString (catContent _ ({ updateDirects fInode (List.range' 1 (blocksFor C)) with
      file_size := C.length } : Inode)) ++ [10] = C ++ [10]
  unfold catContent
  rw [show ({ updateDirects fInode (List.range' 1 (blocksFor C)) with
      file_size := C.length } : Inode).file_size = C.length from rfl]
  rw [hbl]
  rw [roundtrip_zero (List.range' 1 (blocksFor C)) freshTouched.dataRegion C
    (List.nodup_range' _ _)
    (by
      rw [List.length_range']
      simp only [blocksFor, CLUSTER_SIZE] at *
      omega)]
  rw [(cString_eq_self_iff C).mpr h3]

theorem range'_map_add (a c : Nat) :
    (List.range' 0 c).map (fun j => a + j) = List.range' a c := by
  rw [← List.range_eq_range', ← List.range'_eq_map_range]

/-- `updateDirects` on a block list with at least five entries fills the
five direct slots with the first five blocks. -/
theorem updateDirects_cons5 (t : Inode) (b1 b2 b3 b4 b5 : Nat) (xs : List Nat) :
    updateDirects t (b1 :: b2 :: b3 :: b4 :: b5 :: xs) =
      { t with direct1 := b1, direct2 := b2, direct3 := b3, direct4 := b4,
               direct5 := b5 } := by
  rw [updateDirects_spec]
  have hlen : (b1 :: b2 :: b3 :: b4 :: b5 :: xs).length = xs.length + 5 := by simp
  rw [if_pos (by rw [hlen]; omega), if_pos (by rw [hlen]; omega),
    if_pos (by rw [hlen]; omega), if_pos (by rw [hlen]; omega),
    if_pos (by rw [hlen]; omega)]
  rfl

/-- The block list `cat` rebuilds for the fresh file after a >5-block
write: direct blocks 1..5, then (through indirection block 6) blocks
7..k+1, in order. -/
theorem fresh_catBlockList_gt5 (C : List Nat) (fs k : Nat)
    (hk : 5 < k) (hk126 : k ≤ 126) :
    catBlockList
      (writeContentLoop (ptrTable freshTouched.dataRegion 6 0 (List.range' 7 (k - 5)))
        (List.range' 1 5 ++ List.range' 7 (k - 5)) C 0)
      { updateDirects { fInode with indirect1 := 6 }
          (List.range' 1 5 ++ List.range' 7 (k - 5)) with file_size := fs } =
      List.range' 1 5 ++ List.range' 7 (k - 5) := by
  set R := writeContentLoop (ptrTable freshTouched.dataRegion 6 0 (List.range' 7 (k - 5)))
    (List.range' 1 5 ++ List.range' 7 (k - 5)) C 0 with hR
  have hT : ({ updateDirects { fInode with indirect1 := 6 }
      (List.range' 1 5 ++ List.range' 7 (k - 5)) with file_size := fs } : Inode) =
      { id := 1, is_directory := false, references := 1, file_size := fs,
        direct1 := 1, direct2 := 2, direct3 := 3, direct4 := 4, direct5 := 5,
        indirect1 := 6, indirect2 := 0 } := by
    rw [show List.range' 1 5 ++ List.range' 7 (k - 5) =
      1 :: 2 :: 3 :: 4 :: 5 :: List.range' 7 (k - 5) from rfl]
    rw [updateDirects_cons5]
    rfl
  rw [hT]
  show List.range' 1 5 ++ ptrScan R 6 ++ [] = List.range' 1 5 ++ List.range' 7 (k - 5)
  rw [List.append_nil]
  congr 1
  have hframe : ∀ x, 6144 ≤ x → x < 7168 → R x =
      ptrTable freshTouched.dataRegion 6 0 (List.range' 7 (k - 5)) x := by
    intro x hx1 hx2
    apply writeContentLoop_out
    intro b hb
    rcases List.mem_append.mp hb with h | h
    · have := List.mem_range'_1.mp h
      simp only [dataBlockOffset, CLUSTER_SIZE]
      omega
    · have := List.mem_range'_1.mp h
      simp only [dataBlockOffset, CLUSTER_SIZE]
      omega
  unfold ptrScan
  rw [ptrScanAux_spec R 6 (fun j => 7 + j) (k - 5) 0 256 (by omega)
    (by
      intro j hj
      refine ⟨?_, by show 0 < 7 + (0 + j); omega⟩
      show dec32 (readBytes R (dataBlockOffset 6 + 4 * (0 + j)) 4) = 7 + (0 + j)
      have hrb : readBytes R (dataBlockOffset 6 + 4 * (0 + j)) 4 =
          readBytes (ptrTable freshTouched.dataRegion 6 0 (List.range' 7 (k - 5)))
            (dataBlockOffset 6 + 4 * (0 + j)) 4 := by
        apply readBytes_congr
        intro i hi
        apply hframe
        · simp only [dataBlockOffset, CLUSTER_SIZE]; omega
        · simp only [dataBlockOffset, CLUSTER_SIZE]; omega
      rw [hrb, ptrTable_slot 6 _ _ 0 j (by rw [List.length_range']; omega)]
      rw [range'_getD hj]
      rw [dec32_enc32 (by omega)]
      omega)
    (by
      apply dec32_all_zero
      intro i hi
      rw [hframe _ (by simp only [dataBlockOffset, CLUSTER_SIZE]; omega)
        (by simp only [dataBlockOffset, CLUSTER_SIZE]; omega)]
      rw [ptrTable_out 6 _ _ 0 _ (Or.inr (by
        rw [List.length_range']
        simp only [dataBlockOffset, CLUSTER_SIZE]
        omega))]
      exact freshTouched_region_hi _ (by
        simp only [dataBlockOffset, CLUSTER_SIZE]; omega))]
  exact range'_map_add 7 (k - 5)

set_option maxHeartbeats 2000000 in
/-- `cat f` after a >5-block `write f C` on the fresh state prints
exactly `C` and a newline. -/
theorem cat_after_write_gt5 (C : List Nat)
    (hk : 5 < blocksFor C) (hk126 : blocksFor C ≤ 126) (h3 : ∀ b ∈ C, b ≠ 0) :
    (cat (write freshTouched fName C).1 fName).2 = Msg.printed (C ++ [10]) := by
  have h1 : 1 ≤ C.length := by
    by_contra h
    have : C.length = 0 := by omega
    simp only [blocksFor, CLUSTER_SIZE, this] at hk
    omega
  rw [write_fresh_spec_gt5 C hk hk126]
  have hR48 : ∀ x, x < 48 →
      writeContentLoop
        (ptrTable freshTouched.dataRegion 6 0 (List.range' 7 (blocksFor C - 5)))
        (List.range' 1 5 ++ List.range' 7 (blocksFor C - 5)) C 0 x =
        freshTouched.dataRegion x := by
    intro x hx
    rw [writeContentLoop_out _ _ _ _ _ (by
      intro b hb
      rcases List.mem_append.mp hb with h | h
      · have := (List.mem_range'_1.mp h).1
        simp only [dataBlockOffset, CLUSTER_SIZE]
        omega
      · have := (List.mem_range'_1.mp h).1
        simp only [dataBlockOffset, CLUSTER_SIZE]
        omega)]
    exact ptrTable_out 6 _ _ 0 x (Or.inl (by
      simp only [dataBlockOffset, CLUSTER_SIZE]
      omega))
  have hfind : findEntry (write freshTouched fName C).1 rootAfterTouch fName =
      some (2, fEntry) := by
    rw [write_fresh_spec_gt5 C hk hk126]
    unfold findEntry
    rw [show rootAfterTouch.file_size / sizeofDirectoryItem = 3 from rfl]
    show findEntryAux
      (writeContentLoop
        (ptrTable freshTouched.dataRegion 6 0 (List.range' 7 (blocksFor C - 5)))
        (List.range' 1 5 ++ List.range' 7 (blocksFor C - 5)) C 0)
      rootAfterTouch.direct1 fName 0 3 = some (2, fEntry)
    rw [show rootAfterTouch.direct1 = 0 from rfl]
    rw [findEntryAux_congr 0 fName 3 0 (fun x hx1 hx2 => hR48 x (by
      simp only [dataBlockOffset, sizeofDirectoryItem] at hx2
      omega))]
    decide
  have hcat := cat_output
    ({ freshTouched with
        dataBitmap := onesZeros (blocksFor C + 2),
        dataRegion := writeContentLoop
          (ptrTable freshTouched.dataRegion 6 0 (List.range' 7 (blocksFor C - 5)))
          (List.range' 1 5 ++ List.range' 7 (blocksFor C - 5)) C 0,
        inodeTable := fun j => if j = 1 then
            { updateDirects { fInode with indirect1 := 6 }
                (List.range' 1 5 ++ List.range' 7 (blocksFor C - 5)) with
                file_size := C.length }
          else freshTouched.inodeTable j } : FSState)
    fName 2 fEntry (by decide) rfl
    (by rw [write_fresh_spec_gt5 C hk hk126] at hfind; exact hfind)
    (by
      show ({ updateDirects { fInode with indirect1 := 6 }
        (List.range' 1 5 ++ List.range' 7 (blocksFor C - 5)) with
        file_size := C.length } : Inode).is_directory = false
      rw [updateDirects_spec]
      rfl)
    (by
      show ¬ C.length = 0
      omega)
    (by
      show ¬ ({ updateDirects { fInode with indirect1 := 6 }
        (List.range' 1 5 ++ List.range' 7 (blocksFor C - 5)) with
        file_size := C.length } : Inode).direct1 = 0
      rw [show List.range' 1 5 ++ List.range' 7 (blocksFor C - 5) =
        1 :: 2 :: 3 :: 4 :: 5 :: List.range' 7 (blocksFor C - 5) from rfl]
      rw [updateDirects_cons5]
      exact Nat.one_ne_zero)
  rw [hcat]
  congr 1
  have hbl := fresh_catBlockList_gt5 C C.length (blocksFor C) hk hk126
  show cString (catContent _
      ({ updateDirects { fInode with indirect1 := 6 }
          (List.range' 1 5 ++ List.range' 7 (blocksFor C - 5)) with
          file_size := C.length } : Inode)) ++ [10] = C ++ [10]
  unfold catContent
  rw [show ({ updateDirects { fInode with indirect1 := 6 }
      (List.range' 1 5 ++ List.range' 7 (blocksFor C - 5)) with
      file_size := C.length } : Inode).file_size = C.length from rfl]
  rw [hbl]
  rw [roundtrip_zero (List.range' 1 5 ++ List.range' 7 (blocksFor C - 5))
    (ptrTable freshTouched.dataRegion 6 0 (List.range' 7 (blocksFor C - 5))) C
    (List.Nodup.append (List.nodup_range' _ _) (List.nodup_range' _ _)
      (fun a ha1 ha2 => by
        have hx := List.mem_range'_1.mp ha1
        have hy := List.mem_range'_1.mp ha2
        omega))
    (by
      simp only [List.length_append, List.length_range']
      simp only [blocksFor, CLUSTER_SIZE] at *
      omega)]
  rw [(cString_eq_self_iff C).mpr h3]

/-! ## The C3 double-write trace -/

theorem c6144_length : c6144.length = 6144 := by
  rw [show c6144 = List.replicate 6144 97 from rfl, List.length_replicate]

theorem c6144_ne_nil : ¬ c6144 = [] := by
  intro h
  have := congrArg List.length h
  rw [c6144_length] at this
  simp at this

theorem c3_blocksFor : blocksFor c6144 = 6 := by
  simp only [blocksFor, c6144_length]
  decide

/-- The first 6144-byte write, via `write_fresh_spec_gt5` at `k = 6`. -/
theorem c3w1_eq : c3w1 = (c3S1, Msg.ok) := by
  show write freshTouched fName c6144 = (c3S1, Msg.ok)
  rw [write_fresh_spec_gt5 c6144 (by rw [c3_blocksFor]; omega)
    (by rw [c3_blocksFor]; omega)]
  simp only [c3_blocksFor, c6144_length]
  rfl

theorem c3S1_region48 : ∀ x, x < 48 →
    c3S1.dataRegion x = freshTouched.dataRegion x := by
  intro x hx
  show writeContentLoop (ptrTable freshTouched.dataRegion 6 0 (List.range' 7 1))
    (List.range' 1 5 ++ List.range' 7 1) c6144 0 x =
    freshTouched.dataRegion x
  rw [writeContentLoop_out _ _ _ _ _ (by
    intro b hb
    rcases List.mem_append.mp hb with h | h <;>
      (have hb1 := (List.mem_range'_1.mp h).1
       simp only [dataBlockOffset, CLUSTER_SIZE]
       omega))]
  exact ptrTable_out 6 _ _ 0 x (Or.inl (by
    simp only [dataBlockOffset, CLUSTER_SIZE]
    omega))

/-- The second 6144-byte write: the direct slots and the indirection
block are reused, but the indirect data block is freshly allocated
(block 8), not the block 7 that slot 0 already points to. -/
theorem c3_second_write : write c3S1 fName c6144 = (c3S2, Msg.ok) := by
  unfold write
  rw [if_neg (by decide : ¬ fName = ([] : List Nat))]
  rw [if_neg c6144_ne_nil]
  dsimp only
  rw [show readInode c3S1 c3S1.currentDirInode = rootAfterTouch from by decide]
  rw [if_neg (by decide : ¬ (!rootAfterTouch.is_directory) = true)]
  have hfind : findEntry c3S1 rootAfterTouch fName = some (2, fEntry) := by
    unfold findEntry
    rw [show rootAfterTouch.file_size / sizeofDirectoryItem = 3 from rfl]
    show findEntryAux c3S1.dataRegion rootAfterTouch.direct1 fName 0 3 =
      some (2, fEntry)
    rw [show rootAfterTouch.direct1 = 0 from rfl]
    rw [findEntryAux_congr 0 fName 3 0 (fun x hx1 hx2 => c3S1_region48 x (by
      simp only [dataBlockOffset, sizeofDirectoryItem] at hx2
      omega))]
    decide
  rw [hfind]
  dsimp only
  rw [show readInode c3S1 fEntry.inode = c3T1 from rfl]
  rw [if_neg (by decide : ¬ c3T1.is_directory = true)]
  rw [show (c6144.length + CLUSTER_SIZE - 1) / CLUSTER_SIZE = 6 from by
    rw [c6144_length]; decide]
  rw [writeAlloc_reuse_ind c3S1 c3T1 8 (by decide) (by decide) rfl (by decide)]
  dsimp only
  simp only [c6144_length]
  rfl

theorem c3w2_eq : c3w2 = (c3S2, Msg.ok) := by
  show write c3w1.1 fName c6144 = (c3S2, Msg.ok)
  rw [show c3w1.1 = c3S1 from congrArg Prod.fst c3w1_eq]
  exact c3_second_write

/-! ## Claim theorems -/

/-- Claim C2 (code bug): on the trace `format 1; touch a.txt; rm a.txt;
touch b.txt`, the file `a.txt` gets inode 1, `rm` succeeds, yet inode 1's
bitmap byte is still 1 afterwards (rm clears bit `1 mod 8` of byte
`1 div 8` instead of byte 1), so `touch b.txt` allocates inode 2 — not
the freed inode 1 the claim promises. -/
theorem C2_rm_free_granularity_bug :
    c2s2.2 = Msg.ok ∧
    findEntry c2s1 (readInode c2s1 0) aTxt =
      some (2, { inode := 1, item_name := nameBuffer aTxt }) ∧
    c2s2.1.inodeBitmap.getD 1 0 = 1 ∧
    c2s3.2 = Msg.ok ∧
    findEntry c2s3.1 (readInode c2s3.1 0) bTxt =
      some (2, { inode := 2, item_name := nameBuffer bTxt }) ∧
    (2 : Nat) ≠ 1 := by decide

/-- Claim C4: `format` zero-initializes the inode table except slot 0,
sets the root inode to a directory with one reference, file_size
2·sizeof(DirectoryItem) and direct1 = 0, and writes a root block whose
entry 0 is `.` → 0 and entry 1 is `..` → 0. -/
theorem C4_format_layout (sizeMB : Nat) :
    (∀ i, i ≠ 0 → (format sizeMB).inodeTable i = Inode.zero) ∧
    (format sizeMB).inodeTable 0 =
      { Inode.zero with id := 0, is_directory := true, references := 1
                        file_size := 2 * sizeofDirectoryItem, direct1 := 0 } ∧
    readItem (format sizeMB).dataRegion 0 0 = rootDot ∧
    readItem (format sizeMB).dataRegion 0 1 = rootDotDot ∧
    cString rootDot.item_name = dotName ∧ rootDot.inode = 0 ∧
    cString rootDotDot.item_name = dotdotName ∧ rootDotDot.inode = 0 := by
  refine ⟨fun i hi => ?_, rfl, rfl, rfl, rfl, rfl, rfl, rfl⟩
  show (if i = 0 then _ else Inode.zero) = Inode.zero
  simp [hi]

/-- Witness for C4 at `sizeMB = 1`, `i = 1`. -/
theorem C4_format_layout_witness :
    (1 : Nat) ≠ 0 ∧ (format 1).inodeTable 1 = Inode.zero ∧
    readItem (format 1).dataRegion 0 0 = rootDot :=
  ⟨by decide, (C4_format_layout 1).1 1 (by decide), (C4_format_layout 1).2.2.1⟩

/-- Claim C5 (code bug): `format 1; rmdir .` succeeds and leaves the
root directory — still the working directory — with a single entry whose
name is `..` at index 0 (the `.` entry is gone, swap-with-last moved
`..` down) and with the permanent root inode's bitmap byte cleared,
violating the directory invariant the claim states for every reachable
state. -/
theorem C5_rmdir_dot_bug :
    c5s.2 = Msg.ok ∧
    cString (readItem c5s.1.dataRegion 0 0).item_name = dotdotName ∧
    (readInode c5s.1 0).file_size = sizeofDirectoryItem ∧
    c5s.1.inodeBitmap.getD 0 0 = 0 ∧
    c5s.1.currentDirInode = 0 := by decide

/-- Claim C6 counterexample: after `format 1; mkdir a; mkdir b;
mv a b/a` (mv relocates directory `a` without touching its `..` entry),
the cursor path `cd b` (cursor 2), `cd a` (cursor 1), `cd ..` lands on
the root (0), not on `b` (2) where the cursor stood before entering `a`. -/
theorem C6_mv_breaks_cd_cex :
    c6s1.2 = Msg.ok ∧ c6s2.2 = Msg.ok ∧ c6s3.2 = Msg.ok ∧
    c6s2.1.currentDirInode = 2 ∧ c6s3.1.currentDirInode = 1 ∧
    c6s4.1.currentDirInode = 0 ∧ (0 : Nat) ≠ 2 := by decide

/-- Claim C8 counterexample: after `format 1` the recorded cluster count
is 1024 = disk_size / cluster_size, not the claimed
(1 MB − metadata) / 1024 = 1019; format does not exclude the superblock,
bitmap and inode-table bytes. -/
theorem C8_cluster_count_cex :
    (format 1).superblock.cluster_count ≠
      (1 * BYTES_PER_MB -
        (sizeofSuperblock + INODE_BITMAP_SIZE + DATA_BITMAP_SIZE + INODE_TABLE_SIZE)) /
        CLUSTER_SIZE := by decide

/-- Claim C8 amended: after `format 1` the superblock records
cluster_size = 1024 and cluster_count = disk_size / cluster_size = 1024
(no metadata is excluded); the metadata regions occupy the first
288+128+128+4096 bytes, where the data region starts. -/
theorem C8_cluster_count_amended :
    (format 1).superblock.cluster_size = 1024 ∧
    (format 1).superblock.cluster_count = 1 * BYTES_PER_MB / CLUSTER_SIZE ∧
    (format 1).superblock.cluster_count = 1024 ∧
    (format 1).superblock.data_start_address =
      sizeofSuperblock + INODE_BITMAP_SIZE + DATA_BITMAP_SIZE + INODE_TABLE_SIZE := by
  decide

/-- Claim C9 counterexample: after `format 1; mkdir docs; cd docs`,
`pwd` does not print `/docs/` — the src/src `pwd` puts `/` before the
first component and between components only. -/
theorem C9_pwd_trailing_slash_cex :
    pwd c9s ≠ Msg.printed slashDocsSlash := by decide

/-- Claim C9 amended: after `format 1; mkdir docs; cd docs`, `pwd`
prints `/docs` (leading slash, no trailing separator), and after a
further `cd ..` it prints `/`. -/
theorem C9_pwd_amended :
    (mkdir (format 1) docsName).2 = Msg.ok ∧
    (cd (mkdir (format 1) docsName).1 docsName).2 = Msg.ok ∧
    pwd c9s = Msg.printed slashDocs ∧
    (cd c9s dotdotName).2 = Msg.ok ∧
    pwd (cd c9s dotdotName).1 = Msg.printed [47, 10] := by decide

/-- Claim C10 counterexample: a stored content can be empty ( `touch f`
then `cat f`), it contains no NUL byte, and yet cat's output is the
`<empty file>` message rather than the content plus a newline. -/
theorem C10_cat_empty_file_cex :
    (readInode freshTouched 1).file_size = 0 ∧
    (∀ b ∈ ([] : List Nat), b ≠ 0) ∧
    (cat freshTouched fName).2 = Msg.printed (emptyFileBytes ++ [10]) ∧
    (cat freshTouched fName).2 ≠ Msg.printed (([] : List Nat) ++ [10]) := by decide

/-- Claim C6 amended: after a successful `cd name` (not `..`) moving the
cursor into a directory d, a `cd ..` returns the cursor to exactly the
inode it held before, provided d's second (`..`) entry still references
the directory the cursor was in — which mkdir guarantees at creation and
only mv's silent relocation of a directory breaks. -/
theorem C6_cd_parent_amended (s : FSState) (name : List Nat)
    (_hname : name ≠ dotdotName)
    (_hok : (cd s name).2 = Msg.ok)
    (hlink : (decItem (readBytes s.dataRegion
        (dataBlockOffset (readInode s ((cd s name).1.currentDirInode)).direct1 +
          sizeofDirectoryItem) sizeofDirectoryItem)).inode = s.currentDirInode) :
    (cd (cd s name).1 dotdotName).1.currentDirInode = s.currentDirInode := by
  rw [cd_dotdot_cursor]
  obtain ⟨hreg, htab, _, _⟩ := cd_fields s name
  rw [hreg]
  simp only [readInode] at hlink ⊢
  rw [htab]
  exact hlink

/-- Witness for C6 at the state `format 1; mkdir a` with `cd a`. -/
theorem C6_cd_parent_witness :
    nA ≠ dotdotName ∧
    (cd (mkdir (format 1) nA).1 nA).2 = Msg.ok ∧
    (cd (cd (mkdir (format 1) nA).1 nA).1 dotdotName).1.currentDirInode =
      (mkdir (format 1) nA).1.currentDirInode :=
  ⟨by decide, by decide,
    C6_cd_parent_amended (mkdir (format 1) nA).1 nA (by decide) (by decide) (by decide)⟩

/-- Claim C10 amended: for a located plain file with nonempty stored
content (and a set first block), cat prints the longest NUL-free prefix
of the reconstructed content followed by one newline; hence its output
equals the stored content plus the newline exactly when the content
contains no NUL byte.  (For an empty file cat prints `<empty file>`
instead.) -/
theorem C10_cat_nul_amended (s : FSState) (name : List Nat) (i : Nat)
    (it : DirectoryItem)
    (hname : name ≠ [])
    (hdir : (readInode s s.currentDirInode).is_directory = true)
    (hfind : findEntry s (readInode s s.currentDirInode) name = some (i, it))
    (hfile : (readInode s it.inode).is_directory = false)
    (hsize : (readInode s it.inode).file_size ≠ 0)
    (hblk : (readInode s it.inode).direct1 ≠ 0) :
    (cat s name).2 =
      Msg.printed (cString (catContent s (readInode s it.inode)) ++ [10]) ∧
    ((cat s name).2 =
        Msg.printed (catContent s (readInode s it.inode) ++ [10]) ↔
      ∀ b ∈ catContent s (readInode s it.inode), b ≠ 0) := by
  have hcat := cat_output s name i it hname hdir hfind hfile hsize hblk
  refine ⟨hcat, ?_⟩
  rw [hcat]
  simp only [Msg.printed.injEq]
  rw [List.append_left_inj]
  exact cString_eq_self_iff _

/-- Witness for C10 on the state `format 1; touch f; write f hello`. -/
theorem C10_cat_nul_witness :
    (cat helloWritten fName).2 =
      Msg.printed (cString (catContent helloWritten (readInode helloWritten
        ({ inode := 1, item_name := nameBuffer fName } : DirectoryItem).inode)) ++ [10]) :=
  (C10_cat_nul_amended helloWritten fName 2
    { inode := 1, item_name := nameBuffer fName }
    (by decide) (by decide) (by decide) (by decide) (by decide) (by decide)).1

/-- Claim C1 counterexample: the claimed range includes len(C) = 0, but
`write(f, "")` is rejected with INVALID INPUT and the subsequent
`cat(f)` prints `<empty file>`, not the empty content. -/
theorem C1_empty_content_cex :
    (write freshTouched fName []).2 = Msg.invalidInput ∧
    (cat (write freshTouched fName []).1 fName).2 ≠
      Msg.printed (([] : List Nat) ++ [10]) := by decide

/-- Claim C1 amended: on the fresh filesystem (`format 1; touch f`), for
every NUL-free content `C` with `1 ≤ len(C) ≤ 126 × clusterSize`,
`write(f, C)` succeeds and the following `cat(f)` prints exactly `C`
(plus cat's trailing newline); this covers the direct region and the
first-indirect region, the only ranges the 128-byte data bitmap can ever
serve. -/
theorem C1_roundtrip_amended (C : List Nat) (h1 : 1 ≤ C.length)
    (h2 : C.length ≤ 126 * CLUSTER_SIZE) (h3 : ∀ b ∈ C, b ≠ 0) :
    (write freshTouched fName C).2 = Msg.ok ∧
    (cat (write freshTouched fName C).1 fName).2 = Msg.printed (C ++ [10]) := by
  have hk126 : blocksFor C ≤ 126 := by
    simp only [blocksFor, CLUSTER_SIZE] at *
    omega
  by_cases hk5 : blocksFor C ≤ 5
  · exact ⟨by rw [write_fresh_spec_le5 C h1 hk5], cat_after_write_le5 C h1 hk5 h3⟩
  · have hk : 5 < blocksFor C := by omega
    exact ⟨by rw [write_fresh_spec_gt5 C hk hk126], cat_after_write_gt5 C hk hk126 h3⟩

/-- Witness for C1 on the content `hello`. -/
theorem C1_roundtrip_witness :
    (1 ≤ helloBytes.length ∧ helloBytes.length ≤ 126 * CLUSTER_SIZE ∧
      (∀ b ∈ helloBytes, b ≠ 0)) ∧
    (write freshTouched fName helloBytes).2 = Msg.ok ∧
    (cat (write freshTouched fName helloBytes).1 fName).2 =
      Msg.printed (helloBytes ++ [10]) :=
  ⟨⟨by decide, by decide, by decide⟩,
   C1_roundtrip_amended helloBytes (by decide) (by decide) (by decide)⟩

/-- Claim C3 counterexample: after `format 1; touch f`, two identical
6144-byte writes.  The first leaves indirection block 6 with its slot 0
pointing at block 7; the second write succeeds and reuses the direct
slots and the indirection block, yet its pointer slot 0 now holds the
freshly allocated block 8 — the already-allocated pointer target 7 was
not reused, and both blocks 7 and 8 stay marked allocated (block 7 now
unreferenced). -/
theorem C3_indirect_not_reused_cex :
    c3w1.2 = Msg.ok ∧ c3w2.2 = Msg.ok ∧
    dec32 (readBytes c3w1.1.dataRegion (dataBlockOffset 6) 4) = 7 ∧
    dec32 (readBytes c3w2.1.dataRegion (dataBlockOffset 6) 4) = 8 ∧
    c3w2.1.dataBitmap.getD 7 0 = 1 ∧ c3w2.1.dataBitmap.getD 8 0 = 1 := by
  refine ⟨by rw [c3w1_eq], by rw [c3w2_eq], ?_, ?_,
    by rw [c3w2_eq]; decide, by rw [c3w2_eq]; decide⟩
  · rw [c3w1_eq]
    show dec32 (readBytes c3S1.dataRegion (dataBlockOffset 6) 4) = 7
    have hfr : readBytes c3S1.dataRegion (dataBlockOffset 6) 4 =
        readBytes (ptrTable freshTouched.dataRegion 6 0 (List.range' 7 1))
          (dataBlockOffset 6) 4 := by
      apply readBytes_congr
      intro i hi
      show writeContentLoop (ptrTable freshTouched.dataRegion 6 0 (List.range' 7 1))
        (List.range' 1 5 ++ List.range' 7 1) c6144 0 (dataBlockOffset 6 + i) =
        ptrTable freshTouched.dataRegion 6 0 (List.range' 7 1) (dataBlockOffset 6 + i)
      apply writeContentLoop_out
      intro b hb
      rcases List.mem_append.mp hb with h | h <;>
        (have hb1 := List.mem_range'_1.mp h
         simp only [dataBlockOffset, CLUSTER_SIZE]
         omega)
    rw [hfr]
    have hslot := ptrTable_slot 6 (List.range' 7 1) freshTouched.dataRegion 0 0
      (by decide)
    rw [show dataBlockOffset 6 + 4 * (0 + 0) = dataBlockOffset 6 from by
      simp only [dataBlockOffset]; omega] at hslot
    rw [hslot]
    decide
  · rw [c3w2_eq]
    show dec32 (readBytes c3S2.dataRegion (dataBlockOffset 6) 4) = 8
    have hfr : readBytes c3S2.dataRegion (dataBlockOffset 6) 4 =
        readBytes (ptrTable c3S1.dataRegion 6 0 (List.range' 8 1))
          (dataBlockOffset 6) 4 := by
      apply readBytes_congr
      intro i hi
      show writeContentLoop (ptrTable c3S1.dataRegion 6 0 (List.range' 8 1))
        [1, 2, 3, 4, 5, 8] c6144 0 (dataBlockOffset 6 + i) =
        ptrTable c3S1.dataRegion 6 0 (List.range' 8 1) (dataBlockOffset 6 + i)
      apply writeContentLoop_out
      intro b hb
      simp only [List.mem_cons, List.not_mem_nil, or_false] at hb
      rcases hb with rfl | rfl | rfl | rfl | rfl | rfl <;>
        (simp only [dataBlockOffset, CLUSTER_SIZE]; omega)
    rw [hfr]
    have hslot := ptrTable_slot 6 (List.range' 8 1) c3S1.dataRegion 0 0 (by decide)
    rw [show dataBlockOffset 6 + 4 * (0 + 0) = dataBlockOffset 6 from by
      simp only [dataBlockOffset]; omega] at hslot
    rw [hslot]
    decide

/-- Claim C3 amended: `write` reuses already-allocated direct slots in
position order and reuses an already-assigned indirection block, but it
never reuses the data blocks the indirection block's pointer slots
already hold: with all five direct slots and `indirect1` set, a 6-block
write returns the five direct blocks followed by a freshly allocated
block — the lowest index `m` that was free in the data bitmap. -/
theorem C3_write_alloc_amended (s : FSState) (t : Inode) (m : Nat)
    (hpos : ∀ j, j < 5 → directSlot t j > 0)
    (hind1 : t.indirect1 ≠ 0)
    (hbm : s.dataBitmap = onesZeros m) (hm : m + 1 ≤ 128) :
    (writeAlloc s t 6).2 =
      some ({ t with indirect1 := t.indirect1 },
        (List.range' 0 5).map (directSlot t) ++ [m]) ∧
    s.dataBitmap.getD m 0 = 0 := by
  constructor
  · rw [writeAlloc_reuse_ind s t m hpos hind1 hbm hm]
    rfl
  · rw [hbm]
    unfold onesZeros
    rw [List.getD_append_right _ _ _ _ (by simp)]
    rw [List.length_replicate]
    rcases Nat.lt_or_ge m 128 with h | h
    · rw [List.getD_eq_getElem _ _ (by rw [List.length_replicate]; omega)]
      simp
    · omega

/-- Witness for the C3 amended theorem on the post-first-write state. -/
theorem C3_write_alloc_witness :
    ((∀ j, j < 5 → directSlot c3T1 j > 0) ∧ c3T1.indirect1 ≠ 0 ∧
      c3S1.dataBitmap = onesZeros 8 ∧ 8 + 1 ≤ 128) ∧
    (writeAlloc c3S1 c3T1 6).2 =
      some ({ c3T1 with indirect1 := c3T1.indirect1 },
        (List.range' 0 5).map (directSlot c3T1) ++ [8]) ∧
    c3S1.dataBitmap.getD 8 0 = 0 :=
  ⟨⟨by decide, by decide, rfl, by decide⟩,
   C3_write_alloc_amended c3S1 c3T1 8 (by decide) (by decide) rfl (by decide)⟩

set_option maxRecDepth 100000 in
set_option maxHeartbeats 4000000 in
/-- Claim C7 counterexample: after `format 1` and 62 `touch`es the root
directory holds 64 entries (file_size = 1024 = clusterSize, one full
block); the 63rd `touch` still succeeds — no capacity check — and its
entry is written at offset file_size, which is the first byte of data
block 1, outside the root's single block 0. -/
theorem C7_dir_overflow_cex :
    c7s.2 = Msg.ok ∧ (readInode c7full 0).file_size = 1024 ∧
    (readInode c7full 0).file_size + sizeofDirectoryItem > CLUSTER_SIZE ∧
    decItem (readBytes c7s.1.dataRegion (dataBlockOffset 1) 16) =
      { inode := 63, item_name := nameBuffer (mkName 62) } := by
  decide

end VFS
